import Mathlib

/-!
Verification of the generic-netlink core of the streetpass-experiments
repository: the TLV attribute codec (src/genl.rs), the typed attribute
wrappers, structured record parsers and control-message dispatch
(src/controller.rs), and the nl80211 subsystem request path
(src/nl80211.rs).

Bytes are modelled as natural numbers (each byte below 256 on the wire);
buffers are lists of bytes.  All multi-byte integers on this target are
native-endian, which is little-endian on the x86-64 kernel ABI the
program runs against, so the embedding fixes little-endian byte order.
Fallible Rust functions returning Result<_, DecodeError> are embedded as
Except String, the error string carrying the same human-readable cause
the source formats.
-/

/-- Little-endian encoding of a 16-bit integer (NativeEndian::write_u16);
the mod 256 / mod 65536 arithmetic is the u16 cast. -/
def u16le (v : Nat) : List Nat := [v % 256, v / 256 % 256]

/-- Little-endian encoding of a 32-bit integer (NativeEndian::write_u32). -/
def u32le (v : Nat) : List Nat :=
  [v % 256, v / 256 % 256, v / 65536 % 256, v / 16777216 % 256]

/-- Little-endian encoding of a 64-bit integer (NativeEndian::write_u64). -/
def u64le (v : Nat) : List Nat :=
  [v % 256, v / 256 % 256, v / 65536 % 256, v / 16777216 % 256,
   v / 4294967296 % 256, v / 1099511627776 % 256,
   v / 281474976710656 % 256, v / 72057594037927936 % 256]

/-- Little-endian read of a 16-bit integer from the first two bytes of a
buffer (NativeEndian::read_u16); missing bytes read as zero only in the
model, every use is guarded by a length check as in the source. -/
def leRead2 (l : List Nat) : Nat := l.getD 0 0 + 256 * l.getD 1 0

/-- Little-endian read of a 32-bit integer (NativeEndian::read_u32). -/
def leRead4 (l : List Nat) : Nat :=
  l.getD 0 0 + 256 * l.getD 1 0 + 65536 * l.getD 2 0 + 16777216 * l.getD 3 0

/-- Embeds genl.rs nl_align: rounding a length up to the 4-byte netlink
alignment boundary.  The source computes (length + MASK) & !MASK with
MASK = NLMSG_ALIGNTO - 1 = 3; on natural numbers that bit trick equals
rounding down (length + 3) to the nearest multiple of 4. -/
def nl_align (length : Nat) : Nat := (length + 3) / 4 * 4

/-! The well-known generic-netlink controller constants, embedding the
`mod constants` block of src/controller.rs. -/

namespace constants

def CTRL_CMD_UNSPEC : Nat := 0

def CTRL_CMD_NEWFAMILY : Nat := 1

def CTRL_CMD_DELFAMILY : Nat := 2

def CTRL_CMD_GETFAMILY : Nat := 3

def CTRL_CMD_NEWOPS : Nat := 4

def CTRL_CMD_DELOPS : Nat := 5

def CTRL_CMD_GETOPS : Nat := 6

def CTRL_CMD_NEWMCAST_GRP : Nat := 7

def CTRL_CMD_DELMCAST_GRP : Nat := 8

def CTRL_CMD_GETMCAST_GRP : Nat := 9

def CTRL_ATTR_UNSPEC : Nat := 0

def CTRL_ATTR_FAMILY_ID : Nat := 1

def CTRL_ATTR_FAMILY_NAME : Nat := 2

def CTRL_ATTR_VERSION : Nat := 3

def CTRL_ATTR_HDRSIZE : Nat := 4

def CTRL_ATTR_MAXATTR : Nat := 5

def CTRL_ATTR_OPS : Nat := 6

def CTRL_ATTR_MCAST_GROUPS : Nat := 7

def CTRL_ATTR_OP_UNSPEC : Nat := 0

def CTRL_ATTR_OP_ID : Nat := 1

def CTRL_ATTR_OP_FLAGS : Nat := 2

def CTRL_ATTR_MCAST_GRP_UNSPEC : Nat := 0

def CTRL_ATTR_MCAST_GRP_NAME : Nat := 1

def CTRL_ATTR_MCAST_GRP_ID : Nat := 2

end constants

/-! Embedding of src/genl.rs: the hand-written Attribute codec and the
GetFamily control message of that revision. -/

namespace genl

/-- Embeds enum Attribute of genl.rs.  A Rust String is modelled by its
UTF-8 byte list; a CString by its byte list without the trailing nul
(as_bytes_with_nul appends it back during length and emission). -/
inductive Attribute where
  | Unspecified : Attribute
  | U8 : Nat → Attribute
  | U16 : Nat → Attribute
  | U32 : Nat → Attribute
  | Flag : Bool → Attribute
  | MilliSeconds : Nat → Attribute
  | String : List Nat → Attribute
  | NulTerminatedString : List Nat → Attribute
  | Nested : List Attribute → Attribute
  | Custom : Nat → List Nat → Attribute

/-- Embeds Attribute::header_size (a constant 4). -/
def Attribute.header_size (_ : Attribute) : Nat := 4

mutual

/-- Embeds Attribute::length: the unpadded value length of the attribute. -/
def Attribute.length : Attribute → Nat
  | .Unspecified => 0
  | .U8 _ => 1
  | .U16 _ => 2
  | .U32 _ => 4
  | .Flag _ => 1
  | .MilliSeconds _ => 8
  | .String s => s.length
  | .NulTerminatedString s => (s ++ [0]).length
  | .Nested attrs => attr_list_buffer_size attrs
  | .Custom _ data => data.length
termination_by a => (sizeOf a, 0)
decreasing_by all_goals simp_wf <;> omega

/-- Embeds the Emitable buffer_len of Attribute: header size (4) plus the
aligned value length (the dbg! wrapper of the source is an identity). -/
def Attribute.buffer_len (a : Attribute) : Nat := a.header_size + nl_align a.length
termination_by (sizeOf a, 1)
decreasing_by all_goals simp_wf <;> omega

/-- Embeds attr_list_buffer_size of genl.rs: the sum over a slice of
attributes of each aligned buffer_len. -/
def attr_list_buffer_size : List Attribute → Nat
  | [] => 0
  | a :: rest => nl_align a.buffer_len + attr_list_buffer_size rest
termination_by l => (sizeOf l, 2)
decreasing_by all_goals simp_wf <;> omega

end

/-- Embeds Attribute::type_id, including the placeholder type ids the
source assigns per variant (with its TODO about splitting type id from
attribute type). -/
def Attribute.type_id : Attribute → Nat
  | .Unspecified => 0
  | .U8 _ => 1
  | .U16 _ => 2
  | .U32 _ => 3
  | .Flag _ => 4
  | .MilliSeconds _ => 5
  | .String _ => 6
  | .NulTerminatedString _ => 7
  | .Nested _ => 8
  | .Custom id _ => id

mutual

/-- The value bytes Attribute::emit writes after the 4-byte header.  For
a nested list the children are emitted back to back, each at its own
aligned offset of size nl_align(buffer_len) = buffer_len. -/
def Attribute.valueBytes : Attribute → List Nat
  | .Unspecified => []
  | .U8 v => [v % 256]
  | .U16 v => u16le v
  | .U32 v => u32le v
  | .Flag flag => [if flag then 1 else 0]
  | .MilliSeconds ms => u64le ms
  | .String s => s
  | .NulTerminatedString s => s ++ [0]
  | .Nested attrs => Attribute.emitList attrs
  | .Custom _ data => data
termination_by a => (sizeOf a, 0)
decreasing_by all_goals simp_wf <;> omega

/-- Embeds Attribute::emit over a zero-initialised caller buffer of size
buffer_len: the source writes buffer_len as u16, then type_id, then the
value bytes; the trailing alignment padding bytes are never written by
emit and therefore stay at the caller buffer's zeros. -/
def Attribute.emit (a : Attribute) : List Nat :=
  u16le a.buffer_len ++ u16le a.type_id ++ a.valueBytes
    ++ List.replicate (nl_align a.length - a.length) 0
termination_by (sizeOf a, 1)
decreasing_by all_goals simp_wf <;> omega

/-- The nested arm of Attribute::emit: each child is handed a slice of
nl_align(buffer_len) bytes (equal to its buffer_len) and emitted there. -/
def Attribute.emitList : List Attribute → List Nat
  | [] => []
  | a :: rest => a.emit ++ Attribute.emitList rest
termination_by l => (sizeOf l, 2)
decreasing_by all_goals simp_wf <;> omega

end

/-- Embeds enum ControlMessage of genl.rs (this revision's GetFamily
request, holding the family name string). -/
inductive ControlMessage where
  | GetFamily : List Nat → ControlMessage

/-- Embeds the Generic::command impl for genl.rs ControlMessage. -/
def ControlMessage.command : ControlMessage → Nat
  | .GetFamily _ => constants.CTRL_CMD_GETFAMILY

/-- Embeds the Generic::version default (1). -/
def ControlMessage.version (_ : ControlMessage) : Nat := 1

/-- Embeds the Generic::family_id impl: the well-known control family. -/
def ControlMessage.family_id (_ : ControlMessage) : Nat := 0x10

/-- Embeds the Generic::attributes impl: the family name is wrapped in an
Attribute::String. -/
def ControlMessage.attributes : ControlMessage → List Attribute
  | .GetFamily family => [Attribute.String family]

end genl

/-! A model of the external netlink_packet_utils collaborator (its crate
source is not part of this repository) plus the GenericBuffer type that
controller.rs imports from a genl.rs revision missing from src/.  These
definitions follow the wire format and parse contract of spec sections
4.1, 6 and 7. -/

/-- Modelled from the spec: parsers::parse_u16 of the external
netlink_packet_utils crate — a native-endian 16-bit read that rejects a
value slice whose width is not exactly two bytes. -/
def parse_u16 (payload : List Nat) : Except String Nat :=
  if payload.length ≠ 2 then .error "invalid u16"
  else .ok (leRead2 payload)

/-- Modelled from the spec: parsers::parse_u32 of the external
netlink_packet_utils crate — a native-endian 32-bit read that rejects a
value slice whose width is not exactly four bytes. -/
def parse_u32 (payload : List Nat) : Except String Nat :=
  if payload.length ≠ 4 then .error "invalid u32"
  else .ok (leRead4 payload)

/-- Whether a byte is a UTF-8 continuation byte (0x80..0xBF). -/
def utf8Cont (b : Nat) : Bool := 128 ≤ b && b ≤ 191

/-- Whether a byte list is valid UTF-8, by the RFC 3629 byte-range table;
used to model the String::from_utf8 validation inside string parsing. -/
def utf8Valid : List Nat → Bool
  | [] => true
  | b :: rest =>
    if b ≤ 127 then utf8Valid rest
    else if 194 ≤ b && b ≤ 223 then
      match rest with
      | c1 :: r => utf8Cont c1 && utf8Valid r
      | [] => false
    else if b = 224 then
      match rest with
      | c1 :: c2 :: r => (160 ≤ c1 && c1 ≤ 191) && utf8Cont c2 && utf8Valid r
      | _ => false
    else if (225 ≤ b && b ≤ 236) || b = 238 || b = 239 then
      match rest with
      | c1 :: c2 :: r => utf8Cont c1 && utf8Cont c2 && utf8Valid r
      | _ => false
    else if b = 237 then
      match rest with
      | c1 :: c2 :: r => (128 ≤ c1 && c1 ≤ 159) && utf8Cont c2 && utf8Valid r
      | _ => false
    else if b = 240 then
      match rest with
      | c1 :: c2 :: c3 :: r =>
        (144 ≤ c1 && c1 ≤ 191) && utf8Cont c2 && utf8Cont c3 && utf8Valid r
      | _ => false
    else if 241 ≤ b && b ≤ 243 then
      match rest with
      | c1 :: c2 :: c3 :: r => utf8Cont c1 && utf8Cont c2 && utf8Cont c3 && utf8Valid r
      | _ => false
    else if b = 244 then
      match rest with
      | c1 :: c2 :: c3 :: r =>
        (128 ≤ c1 && c1 ≤ 143) && utf8Cont c2 && utf8Cont c3 && utf8Valid r
      | _ => false
    else false

/-- Modelled from the spec: parsers::parse_string of the external
netlink_packet_utils crate — a byte-to-text decode of the value bytes
(the codec's native string attributes carry no nul terminator), failing
on bytes that are not valid UTF-8. -/
def parse_string (payload : List Nat) : Except String (List Nat) :=
  if utf8Valid payload then .ok payload else .error "invalid string"

/-- Modelled from the spec: NlaBuffer of the external
netlink_packet_utils crate — a view of one attribute at the head of a
byte buffer: u16 length, u16 tag, value of length - 4 bytes. -/
structure NlaBuf where
  raw : List Nat
deriving DecidableEq

/-- The declared length field: the first two bytes, native-endian. -/
def NlaBuf.length (b : NlaBuf) : Nat := leRead2 b.raw

/-- The tag field at offset 2; the top two bits (nested and
network-byte-order flags) are masked off, as the spec's data model says
they are ignored here. -/
def NlaBuf.kind (b : NlaBuf) : Nat := leRead2 (b.raw.drop 2) % 16384

/-- The value slice: bytes 4 .. declared length. -/
def NlaBuf.value (b : NlaBuf) : List Nat := (b.raw.drop 4).take (b.length - 4)

/-- Modelled from the spec: NlaBuffer::new_checked — reading the 4-byte
header demands at least 4 bytes, the declared length must cover its own
header (a declared length of exactly 4 is a valid empty value), and the
declared length must not exceed the bytes remaining in the buffer. -/
def NlaBuf.new_checked (raw : List Nat) : Except String NlaBuf :=
  if raw.length < 4 then .error "truncated attribute header"
  else if leRead2 raw < 4 then .error "attribute length field below header size"
  else if raw.length < leRead2 raw then
    .error "declared attribute length exceeds remaining buffer"
  else .ok (NlaBuf.mk raw)

/-- Modelled from the spec: one step of NlasIterator of the external
netlink_packet_utils crate — at the end of the buffer the iteration
stops; otherwise the attribute at the head is checked and returned
together with the rest of the buffer after the aligned footprint of that
attribute. -/
def nlasNext (buf : List Nat) : Except String (Option (NlaBuf × List Nat)) :=
  if buf = [] then .ok none
  else match NlaBuf.new_checked buf with
    | .error e => .error e
    | .ok nla => .ok (some (nla, buf.drop (nl_align nla.length)))

/-- Modelled from the spec: the default Nla emit of the external
netlink_packet_utils crate used by every typed attribute wrapper — it
writes the unpadded value length plus 4 as the u16 length field, the tag,
then the value bytes; the padding bytes up to the aligned buffer_len stay
at the zeros of the zero-initialised caller buffer. -/
def nlaEmitBytes (kind : Nat) (value : List Nat) : List Nat :=
  u16le (value.length + 4) ++ u16le kind ++ value
    ++ List.replicate (nl_align value.length - value.length) 0

/-! Embedding of src/controller.rs: typed attribute wrappers generated by
impl_wrapped_attribute, record parsers generated by
impl_nested_attribute_parse, and the control message codec. -/

namespace controller

/-- Embeds struct FamilyId(u16). -/
structure FamilyId where
  val : Nat
deriving DecidableEq

/-- Embeds struct FamilyName(String), the string held as UTF-8 bytes. -/
structure FamilyName where
  val : List Nat
deriving DecidableEq

/-- Embeds struct Version(u32). -/
structure Version where
  val : Nat
deriving DecidableEq

/-- Embeds struct HeaderSize(u32). -/
structure HeaderSize where
  val : Nat
deriving DecidableEq

/-- Embeds struct MaxAttributes(u32). -/
structure MaxAttributes where
  val : Nat
deriving DecidableEq

/-- Embeds struct OperationId(u32). -/
structure OperationId where
  val : Nat
deriving DecidableEq

/-- Embeds struct OperationFlags(u32). -/
structure OperationFlags where
  val : Nat
deriving DecidableEq

/-- Embeds struct MulticastGroupId(u32). -/
structure MulticastGroupId where
  val : Nat
deriving DecidableEq

/-- Embeds struct MulticastGroupName(String). -/
structure MulticastGroupName where
  val : List Nat
deriving DecidableEq

/-- The Nla value_len of FamilyId: size_of::<u16>. -/
def FamilyId.value_len (_ : FamilyId) : Nat := 2

/-- The Nla kind of FamilyId (impl_wrapped_attribute tag constant). -/
def FamilyId.kind (_ : FamilyId) : Nat := constants.CTRL_ATTR_FAMILY_ID

/-- The Nla emit_value of FamilyId: a native-endian u16 write. -/
def FamilyId.emit_value (a : FamilyId) : List Nat := u16le a.val

/-- The library Emitable buffer_len of FamilyId: 4 + aligned value length. -/
def FamilyId.buffer_len (a : FamilyId) : Nat := 4 + nl_align a.value_len

/-- The full library emit of FamilyId. -/
def FamilyId.emit (a : FamilyId) : List Nat := nlaEmitBytes a.kind a.emit_value

/-- The Parseable impl of FamilyId: parse_u16 of the located value bytes. -/
def FamilyId.parse (b : NlaBuf) : Except String FamilyId :=
  (parse_u16 b.value).map FamilyId.mk

/-- The Nla value_len of FamilyName: the string byte length, no nul. -/
def FamilyName.value_len (a : FamilyName) : Nat := a.val.length

/-- The Nla kind of FamilyName. -/
def FamilyName.kind (_ : FamilyName) : Nat := constants.CTRL_ATTR_FAMILY_NAME

/-- The Nla emit_value of FamilyName: a raw byte copy of the string. -/
def FamilyName.emit_value (a : FamilyName) : List Nat := a.val

/-- The library Emitable buffer_len of FamilyName. -/
def FamilyName.buffer_len (a : FamilyName) : Nat := 4 + nl_align a.value_len

/-- The full library emit of FamilyName. -/
def FamilyName.emit (a : FamilyName) : List Nat := nlaEmitBytes a.kind a.emit_value

/-- The Parseable impl of FamilyName: parse_string of the value bytes. -/
def FamilyName.parse (b : NlaBuf) : Except String FamilyName :=
  (parse_string b.value).map FamilyName.mk

/-- The Nla value_len of Version: size_of::<u32>. -/
def Version.value_len (_ : Version) : Nat := 4

/-- The Nla kind of Version. -/
def Version.kind (_ : Version) : Nat := constants.CTRL_ATTR_VERSION

/-- The Nla emit_value of Version. -/
def Version.emit_value (a : Version) : List Nat := u32le a.val

/-- The library Emitable buffer_len of Version. -/
def Version.buffer_len (a : Version) : Nat := 4 + nl_align a.value_len

/-- The full library emit of Version. -/
def Version.emit (a : Version) : List Nat := nlaEmitBytes a.kind a.emit_value

/-- The Parseable impl of Version. -/
def Version.parse (b : NlaBuf) : Except String Version :=
  (parse_u32 b.value).map Version.mk

/-- The Nla value_len of HeaderSize. -/
def HeaderSize.value_len (_ : HeaderSize) : Nat := 4

/-- The Nla kind of HeaderSize. -/
def HeaderSize.kind (_ : HeaderSize) : Nat := constants.CTRL_ATTR_HDRSIZE

/-- The Nla emit_value of HeaderSize. -/
def HeaderSize.emit_value (a : HeaderSize) : List Nat := u32le a.val

/-- The library Emitable buffer_len of HeaderSize. -/
def HeaderSize.buffer_len (a : HeaderSize) : Nat := 4 + nl_align a.value_len

/-- The full library emit of HeaderSize. -/
def HeaderSize.emit (a : HeaderSize) : List Nat := nlaEmitBytes a.kind a.emit_value

/-- The Parseable impl of HeaderSize. -/
def HeaderSize.parse (b : NlaBuf) : Except String HeaderSize :=
  (parse_u32 b.value).map HeaderSize.mk

/-- The Nla value_len of MaxAttributes. -/
def MaxAttributes.value_len (_ : MaxAttributes) : Nat := 4

/-- The Nla kind of MaxAttributes. -/
def MaxAttributes.kind (_ : MaxAttributes) : Nat := constants.CTRL_ATTR_MAXATTR

/-- The Nla emit_value of MaxAttributes. -/
def MaxAttributes.emit_value (a : MaxAttributes) : List Nat := u32le a.val

/-- The library Emitable buffer_len of MaxAttributes. -/
def MaxAttributes.buffer_len (a : MaxAttributes) : Nat := 4 + nl_align a.value_len

/-- The full library emit of MaxAttributes. -/
def MaxAttributes.emit (a : MaxAttributes) : List Nat := nlaEmitBytes a.kind a.emit_value

/-- The Parseable impl of MaxAttributes. -/
def MaxAttributes.parse (b : NlaBuf) : Except String MaxAttributes :=
  (parse_u32 b.value).map MaxAttributes.mk

/-- The Nla value_len of OperationId. -/
def OperationId.value_len (_ : OperationId) : Nat := 4

/-- The Nla kind of OperationId. -/
def OperationId.kind (_ : OperationId) : Nat := constants.CTRL_ATTR_OP_ID

/-- The Nla emit_value of OperationId. -/
def OperationId.emit_value (a : OperationId) : List Nat := u32le a.val

/-- The library Emitable buffer_len of OperationId. -/
def OperationId.buffer_len (a : OperationId) : Nat := 4 + nl_align a.value_len

/-- The full library emit of OperationId. -/
def OperationId.emit (a : OperationId) : List Nat := nlaEmitBytes a.kind a.emit_value

/-- The Parseable impl of OperationId. -/
def OperationId.parse (b : NlaBuf) : Except String OperationId :=
  (parse_u32 b.value).map OperationId.mk

/-- The Nla value_len of OperationFlags. -/
def OperationFlags.value_len (_ : OperationFlags) : Nat := 4

/-- The Nla kind of OperationFlags. -/
def OperationFlags.kind (_ : OperationFlags) : Nat := constants.CTRL_ATTR_OP_FLAGS

/-- The Nla emit_value of OperationFlags. -/
def OperationFlags.emit_value (a : OperationFlags) : List Nat := u32le a.val

/-- The library Emitable buffer_len of OperationFlags. -/
def OperationFlags.buffer_len (a : OperationFlags) : Nat := 4 + nl_align a.value_len

/-- The full library emit of OperationFlags. -/
def OperationFlags.emit (a : OperationFlags) : List Nat := nlaEmitBytes a.kind a.emit_value

/-- The Parseable impl of OperationFlags. -/
def OperationFlags.parse (b : NlaBuf) : Except String OperationFlags :=
  (parse_u32 b.value).map OperationFlags.mk

/-- The Nla value_len of MulticastGroupId. -/
def MulticastGroupId.value_len (_ : MulticastGroupId) : Nat := 4

/-- The Nla kind of MulticastGroupId. -/
def MulticastGroupId.kind (_ : MulticastGroupId) : Nat := constants.CTRL_ATTR_MCAST_GRP_ID

/-- The Nla emit_value of MulticastGroupId. -/
def MulticastGroupId.emit_value (a : MulticastGroupId) : List Nat := u32le a.val

/-- The library Emitable buffer_len of MulticastGroupId. -/
def MulticastGroupId.buffer_len (a : MulticastGroupId) : Nat := 4 + nl_align a.value_len

/-- The full library emit of MulticastGroupId. -/
def MulticastGroupId.emit (a : MulticastGroupId) : List Nat := nlaEmitBytes a.kind a.emit_value

/-- The Parseable impl of MulticastGroupId. -/
def MulticastGroupId.parse (b : NlaBuf) : Except String MulticastGroupId :=
  (parse_u32 b.value).map MulticastGroupId.mk

/-- The Nla value_len of MulticastGroupName. -/
def MulticastGroupName.value_len (a : MulticastGroupName) : Nat := a.val.length

/-- The Nla kind of MulticastGroupName. -/
def MulticastGroupName.kind (_ : MulticastGroupName) : Nat := constants.CTRL_ATTR_MCAST_GRP_NAME

/-- The Nla emit_value of MulticastGroupName. -/
def MulticastGroupName.emit_value (a : MulticastGroupName) : List Nat := a.val

/-- The library Emitable buffer_len of MulticastGroupName. -/
def MulticastGroupName.buffer_len (a : MulticastGroupName) : Nat := 4 + nl_align a.value_len

/-- The full library emit of MulticastGroupName. -/
def MulticastGroupName.emit (a : MulticastGroupName) : List Nat := nlaEmitBytes a.kind a.emit_value

/-- The Parseable impl of MulticastGroupName. -/
def MulticastGroupName.parse (b : NlaBuf) : Except String MulticastGroupName :=
  (parse_string b.value).map MulticastGroupName.mk

end controller

namespace controller

/-- Embeds struct Operation of controller.rs. -/
structure Operation where
  id : OperationId
  flags : OperationFlags
deriving DecidableEq

/-- The sibling-attribute loop that impl_nested_attribute_parse generates
for Operation: each iterator item is matched on its tag; a recognised tag
replaces the corresponding option slot with the freshly parsed value, an
unrecognised tag is a hard decode error naming the tag. -/
def Operation.parseLoop (buf : List Nat) (id : Option OperationId)
    (flags : Option OperationFlags) :
    Except String (Option OperationId × Option OperationFlags) :=
  match h : nlasNext buf with
  | .error e => .error e
  | .ok none => .ok (id, flags)
  | .ok (some (nla, rest)) =>
    if nla.kind = constants.CTRL_ATTR_OP_ID then
      match OperationId.parse nla with
      | .error e => .error e
      | .ok v => Operation.parseLoop rest (some v) flags
    else if nla.kind = constants.CTRL_ATTR_OP_FLAGS then
      match OperationFlags.parse nla with
      | .error e => .error e
      | .ok v => Operation.parseLoop rest id (some v)
    else
      .error ("encountered unexpected kind " ++ Nat.repr nla.kind
        ++ " when parsing Operation")
termination_by buf.length
decreasing_by
  all_goals
    unfold nlasNext at h
    split at h
    · simp at h
    · cases hchk : NlaBuf.new_checked buf with
      | error e => rw [hchk] at h; simp at h
      | ok nla2 =>
        rw [hchk] at h
        simp only [Except.ok.injEq, Option.some.injEq, Prod.mk.injEq] at h
        obtain ⟨h1, h2⟩ := h
        unfold NlaBuf.new_checked at hchk
        split at hchk
        · simp at hchk
        · split at hchk
          · simp at hchk
          · split at hchk
            · simp at hchk
            · simp only [Except.ok.injEq] at hchk
              subst hchk
              have hlen2 : (NlaBuf.mk buf).length = leRead2 buf := rfl
              have halign : 4 ≤ nl_align (leRead2 buf) := by
                unfold nl_align
                omega
              rw [← h2, hlen2, List.length_drop]
              omega

/-- Embeds the Parseable impl impl_nested_attribute_parse generates for
Operation: run the sibling loop, then demand every slot be populated, a
remaining unset slot being a decode error naming the missing field. -/
def Operation.parse (buf : List Nat) : Except String Operation :=
  match Operation.parseLoop buf none none with
  | .error e => .error e
  | .ok (id, flags) =>
    match id with
    | none => .error "missing attribute CTRL_ATTR_OP_ID when parsing Operation"
    | some id =>
      match flags with
      | none => .error "missing attribute CTRL_ATTR_OP_FLAGS when parsing Operation"
      | some flags => .ok (Operation.mk id flags)

/-- Embeds struct MulticastGroup of controller.rs. -/
structure MulticastGroup where
  id : MulticastGroupId
  name : MulticastGroupName
deriving DecidableEq

/-- The sibling-attribute loop impl_nested_attribute_parse generates for
MulticastGroup (mapping order: name, then id). -/
def MulticastGroup.parseLoop (buf : List Nat) (name : Option MulticastGroupName)
    (id : Option MulticastGroupId) :
    Except String (Option MulticastGroupName × Option MulticastGroupId) :=
  match h : nlasNext buf with
  | .error e => .error e
  | .ok none => .ok (name, id)
  | .ok (some (nla, rest)) =>
    if nla.kind = constants.CTRL_ATTR_MCAST_GRP_NAME then
      match MulticastGroupName.parse nla with
      | .error e => .error e
      | .ok v => MulticastGroup.parseLoop rest (some v) id
    else if nla.kind = constants.CTRL_ATTR_MCAST_GRP_ID then
      match MulticastGroupId.parse nla with
      | .error e => .error e
      | .ok v => MulticastGroup.parseLoop rest name (some v)
    else
      .error ("encountered unexpected kind " ++ Nat.repr nla.kind
        ++ " when parsing MulticastGroup")
termination_by buf.length
decreasing_by
  all_goals
    unfold nlasNext at h
    split at h
    · simp at h
    · cases hchk : NlaBuf.new_checked buf with
      | error e => rw [hchk] at h; simp at h
      | ok nla2 =>
        rw [hchk] at h
        simp only [Except.ok.injEq, Option.some.injEq, Prod.mk.injEq] at h
        obtain ⟨h1, h2⟩ := h
        unfold NlaBuf.new_checked at hchk
        split at hchk
        · simp at hchk
        · split at hchk
          · simp at hchk
          · split at hchk
            · simp at hchk
            · simp only [Except.ok.injEq] at hchk
              subst hchk
              have hlen2 : (NlaBuf.mk buf).length = leRead2 buf := rfl
              have halign : 4 ≤ nl_align (leRead2 buf) := by
                unfold nl_align
                omega
              rw [← h2, hlen2, List.length_drop]
              omega

/-- Embeds the Parseable impl for MulticastGroup. -/
def MulticastGroup.parse (buf : List Nat) : Except String MulticastGroup :=
  match MulticastGroup.parseLoop buf none none with
  | .error e => .error e
  | .ok (name, id) =>
    match name with
    | none => .error "missing attribute CTRL_ATTR_MCAST_GRP_NAME when parsing MulticastGroup"
    | some name =>
      match id with
      | none => .error "missing attribute CTRL_ATTR_MCAST_GRP_ID when parsing MulticastGroup"
      | some id => .ok (MulticastGroup.mk id name)

/-- Embeds struct OperationList of controller.rs. -/
structure OperationList where
  operations : List Operation
deriving DecidableEq

/-- The iterator of the Parseable impl for OperationList: each child
attribute's value is itself parsed as an Operation record, collecting
results and stopping at the first error. -/
def OperationList.parseItems (buf : List Nat) : Except String (List Operation) :=
  match h : nlasNext buf with
  | .error e => .error e
  | .ok none => .ok []
  | .ok (some (nla, rest)) =>
    match Operation.parse nla.value with
    | .error e => .error e
    | .ok op =>
      match OperationList.parseItems rest with
      | .error e => .error e
      | .ok ops => .ok (op :: ops)
termination_by buf.length
decreasing_by
  all_goals
    unfold nlasNext at h
    split at h
    · simp at h
    · cases hchk : NlaBuf.new_checked buf with
      | error e => rw [hchk] at h; simp at h
      | ok nla2 =>
        rw [hchk] at h
        simp only [Except.ok.injEq, Option.some.injEq, Prod.mk.injEq] at h
        obtain ⟨h1, h2⟩ := h
        unfold NlaBuf.new_checked at hchk
        split at hchk
        · simp at hchk
        · split at hchk
          · simp at hchk
          · split at hchk
            · simp at hchk
            · simp only [Except.ok.injEq] at hchk
              subst hchk
              have hlen2 : (NlaBuf.mk buf).length = leRead2 buf := rfl
              have halign : 4 ≤ nl_align (leRead2 buf) := by
                unfold nl_align
                omega
              rw [← h2, hlen2, List.length_drop]
              omega

/-- Embeds the Parseable impl for OperationList, which iterates the value
bytes of the located container attribute. -/
def OperationList.parse (b : NlaBuf) : Except String OperationList :=
  (OperationList.parseItems b.value).map OperationList.mk

/-- Embeds struct MulticastGroupList of controller.rs. -/
structure MulticastGroupList where
  groups : List MulticastGroup
deriving DecidableEq

/-- The iterator of the Parseable impl for MulticastGroupList. -/
def MulticastGroupList.parseItems (buf : List Nat) :
    Except String (List MulticastGroup) :=
  match h : nlasNext buf with
  | .error e => .error e
  | .ok none => .ok []
  | .ok (some (nla, rest)) =>
    match MulticastGroup.parse nla.value with
    | .error e => .error e
    | .ok g =>
      match MulticastGroupList.parseItems rest with
      | .error e => .error e
      | .ok gs => .ok (g :: gs)
termination_by buf.length
decreasing_by
  all_goals
    unfold nlasNext at h
    split at h
    · simp at h
    · cases hchk : NlaBuf.new_checked buf with
      | error e => rw [hchk] at h; simp at h
      | ok nla2 =>
        rw [hchk] at h
        simp only [Except.ok.injEq, Option.some.injEq, Prod.mk.injEq] at h
        obtain ⟨h1, h2⟩ := h
        unfold NlaBuf.new_checked at hchk
        split at hchk
        · simp at hchk
        · split at hchk
          · simp at hchk
          · split at hchk
            · simp at hchk
            · simp only [Except.ok.injEq] at hchk
              subst hchk
              have hlen2 : (NlaBuf.mk buf).length = leRead2 buf := rfl
              have halign : 4 ≤ nl_align (leRead2 buf) := by
                unfold nl_align
                omega
              rw [← h2, hlen2, List.length_drop]
              omega

/-- Embeds the Parseable impl for MulticastGroupList. -/
def MulticastGroupList.parse (b : NlaBuf) : Except String MulticastGroupList :=
  (MulticastGroupList.parseItems b.value).map MulticastGroupList.mk

/-- Embeds struct NewFamily of controller.rs. -/
structure NewFamily where
  id : FamilyId
  name : FamilyName
  version : Version
  header_size : HeaderSize
  max_attributes : MaxAttributes
  operations : OperationList
  multicast_groups : MulticastGroupList
deriving DecidableEq

/-- The sibling-attribute loop impl_nested_attribute_parse generates for
NewFamily (mapping order: name, id, version, header_size, max_attributes,
operations, multicast_groups). -/
def NewFamily.parseLoop (buf : List Nat)
    (name : Option FamilyName) (id : Option FamilyId) (version : Option Version)
    (header_size : Option HeaderSize) (max_attributes : Option MaxAttributes)
    (operations : Option OperationList)
    (multicast_groups : Option MulticastGroupList) :
    Except String (Option FamilyName × Option FamilyId × Option Version
      × Option HeaderSize × Option MaxAttributes × Option OperationList
      × Option MulticastGroupList) :=
  match h : nlasNext buf with
  | .error e => .error e
  | .ok none =>
    .ok (name, id, version, header_size, max_attributes, operations, multicast_groups)
  | .ok (some (nla, rest)) =>
    if nla.kind = constants.CTRL_ATTR_FAMILY_NAME then
      match FamilyName.parse nla with
      | .error e => .error e
      | .ok v => NewFamily.parseLoop rest (some v) id version header_size
          max_attributes operations multicast_groups
    else if nla.kind = constants.CTRL_ATTR_FAMILY_ID then
      match FamilyId.parse nla with
      | .error e => .error e
      | .ok v => NewFamily.parseLoop rest name (some v) version header_size
          max_attributes operations multicast_groups
    else if nla.kind = constants.CTRL_ATTR_VERSION then
      match Version.parse nla with
      | .error e => .error e
      | .ok v => NewFamily.parseLoop rest name id (some v) header_size
          max_attributes operations multicast_groups
    else if nla.kind = constants.CTRL_ATTR_HDRSIZE then
      match HeaderSize.parse nla with
      | .error e => .error e
      | .ok v => NewFamily.parseLoop rest name id version (some v)
          max_attributes operations multicast_groups
    else if nla.kind = constants.CTRL_ATTR_MAXATTR then
      match MaxAttributes.parse nla with
      | .error e => .error e
      | .ok v => NewFamily.parseLoop rest name id version header_size
          (some v) operations multicast_groups
    else if nla.kind = constants.CTRL_ATTR_OPS then
      match OperationList.parse nla with
      | .error e => .error e
      | .ok v => NewFamily.parseLoop rest name id version header_size
          max_attributes (some v) multicast_groups
    else if nla.kind = constants.CTRL_ATTR_MCAST_GROUPS then
      match MulticastGroupList.parse nla with
      | .error e => .error e
      | .ok v => NewFamily.parseLoop rest name id version header_size
          max_attributes operations (some v)
    else
      .error ("encountered unexpected kind " ++ Nat.repr nla.kind
        ++ " when parsing NewFamily")
termination_by buf.length
decreasing_by
  all_goals
    unfold nlasNext at h
    split at h
    · simp at h
    · cases hchk : NlaBuf.new_checked buf with
      | error e => rw [hchk] at h; simp at h
      | ok nla2 =>
        rw [hchk] at h
        simp only [Except.ok.injEq, Option.some.injEq, Prod.mk.injEq] at h
        obtain ⟨h1, h2⟩ := h
        unfold NlaBuf.new_checked at hchk
        split at hchk
        · simp at hchk
        · split at hchk
          · simp at hchk
          · split at hchk
            · simp at hchk
            · simp only [Except.ok.injEq] at hchk
              subst hchk
              have hlen2 : (NlaBuf.mk buf).length = leRead2 buf := rfl
              have halign : 4 ≤ nl_align (leRead2 buf) := by
                unfold nl_align
                omega
              rw [← h2, hlen2, List.length_drop]
              omega

/-- Embeds the Parseable impl for NewFamily: run the loop, then demand
each slot be populated, in the mapping's order, a remaining unset slot
being a decode error naming the missing field. -/
def NewFamily.parse (buf : List Nat) : Except String NewFamily :=
  match NewFamily.parseLoop buf none none none none none none none with
  | .error e => .error e
  | .ok (name, id, version, header_size, max_attributes, operations, multicast_groups) =>
    match name with
    | none => .error "missing attribute CTRL_ATTR_FAMILY_NAME when parsing NewFamily"
    | some name =>
      match id with
      | none => .error "missing attribute CTRL_ATTR_FAMILY_ID when parsing NewFamily"
      | some id =>
        match version with
        | none => .error "missing attribute CTRL_ATTR_VERSION when parsing NewFamily"
        | some version =>
          match header_size with
          | none => .error "missing attribute CTRL_ATTR_HDRSIZE when parsing NewFamily"
          | some header_size =>
            match max_attributes with
            | none => .error "missing attribute CTRL_ATTR_MAXATTR when parsing NewFamily"
            | some max_attributes =>
              match operations with
              | none => .error "missing attribute CTRL_ATTR_OPS when parsing NewFamily"
              | some operations =>
                match multicast_groups with
                | none =>
                  .error "missing attribute CTRL_ATTR_MCAST_GROUPS when parsing NewFamily"
                | some multicast_groups =>
                  .ok (NewFamily.mk id name version header_size max_attributes
                    operations multicast_groups)

/-- Embeds enum ControlMessage of controller.rs. -/
inductive ControlMessage where
  | NewFamily : controller.NewFamily → ControlMessage
  | GetFamily : FamilyName → ControlMessage
deriving DecidableEq

/-- Embeds ControlMessage::attribute_size. -/
def ControlMessage.attribute_size : ControlMessage → Nat
  | .NewFamily family => family.id.buffer_len + family.name.buffer_len
  | .GetFamily name => name.buffer_len

/-- Embeds ControlMessage::command. -/
def ControlMessage.command : ControlMessage → Nat
  | .NewFamily _ => constants.CTRL_CMD_NEWFAMILY
  | .GetFamily _ => constants.CTRL_CMD_GETFAMILY

/-- Embeds ControlMessage::version. -/
def ControlMessage.version : ControlMessage → Nat
  | .NewFamily _ => 2
  | .GetFamily _ => 1

/-- Embeds ControlMessage::emit_attributes; serializing a NewFamily is an
unimplemented!() abort in the source, modelled as an error. -/
def ControlMessage.emit_attributes : ControlMessage → Except String (List Nat)
  | .NewFamily _ => .error "not implemented"
  | .GetFamily name => .ok name.emit

/-- Embeds the NetlinkSerializable message_type for ControlMessage: the
well-known control family 0x10. -/
def ControlMessage.message_type (_ : ControlMessage) : Nat := 0x10

/-- Embeds the NetlinkSerializable serialize for ControlMessage: command,
version, two reserved zero bytes, then the attributes. -/
def ControlMessage.serialize (m : ControlMessage) : Except String (List Nat) :=
  (m.emit_attributes).map fun attrs => [m.command, m.version, 0, 0] ++ attrs

/-- Modelled from the spec: GenericBuffer, which controller.rs imports
from a genl.rs revision that is missing from src/ — a view of a generic
message payload: u8 command, u8 version, u16 reserved, then the attribute
bytes (spec sections 4.4 and 6). -/
structure GenericBuf where
  raw : List Nat
deriving DecidableEq

/-- The command byte of the generic payload. -/
def GenericBuf.command (b : GenericBuf) : Nat := b.raw.getD 0 0

/-- The attribute bytes following the 4-byte generic header. -/
def GenericBuf.attributes (b : GenericBuf) : List Nat := b.raw.drop 4

/-- Modelled from the spec: GenericBuffer::new_checked — a payload
shorter than the 4-byte generic header is a truncation decode error. -/
def GenericBuf.new_checked (payload : List Nat) : Except String GenericBuf :=
  if payload.length < 4 then .error "truncated generic header"
  else .ok (GenericBuf.mk payload)

/-- Embeds the ParseableParametrized impl of ControlMessage: dispatch on
the outer message type, then on the payload command byte; both unknown
cases are decode errors reporting the numeric value seen. -/
def ControlMessage.parse_with_param (buffer : GenericBuf) (message_type : Nat) :
    Except String ControlMessage :=
  if message_type = 0x10 then
    if buffer.command = constants.CTRL_CMD_NEWFAMILY then
      match NewFamily.parse buffer.attributes with
      | .error e => .error e
      | .ok new_family => .ok (ControlMessage.NewFamily new_family)
    else .error ("unsupported command " ++ Nat.repr buffer.command)
  else .error ("unknown message type " ++ Nat.repr message_type)

/-- Embeds the NetlinkDeserializable impl of ControlMessage: check the
generic header, then dispatch on the outer header's message type. -/
def ControlMessage.deserialize (message_type : Nat) (payload : List Nat) :
    Except String ControlMessage :=
  match GenericBuf.new_checked payload with
  | .error e => .error e
  | .ok generic_buffer => ControlMessage.parse_with_param generic_buffer message_type

end controller

/-! Embedding of src/nl80211.rs: the resolved-family request path. -/

namespace nl80211

def NL80211_CMD_GET_INTERFACE : Nat := 5

def NL80211_ATTR_IFINDEX : Nat := 3

def NL80211_ATTR_IFNAME : Nat := 4

/-- Embeds struct InterfaceIndex(u32). -/
structure InterfaceIndex where
  val : Nat
deriving DecidableEq

/-- Embeds struct InterfaceName(String). -/
structure InterfaceName where
  val : List Nat
deriving DecidableEq

/-- The Nla value_len of InterfaceIndex: size_of::<u32>. -/
def InterfaceIndex.value_len (_ : InterfaceIndex) : Nat := 4

/-- The Nla kind of InterfaceIndex. -/
def InterfaceIndex.kind (_ : InterfaceIndex) : Nat := NL80211_ATTR_IFINDEX

/-- The Nla emit_value of InterfaceIndex. -/
def InterfaceIndex.emit_value (a : InterfaceIndex) : List Nat := u32le a.val

/-- The library Emitable buffer_len of InterfaceIndex. -/
def InterfaceIndex.buffer_len (a : InterfaceIndex) : Nat := 4 + nl_align a.value_len

/-- The full library emit of InterfaceIndex. -/
def InterfaceIndex.emit (a : InterfaceIndex) : List Nat := nlaEmitBytes a.kind a.emit_value

/-- The Parseable impl of InterfaceIndex. -/
def InterfaceIndex.parse (b : NlaBuf) : Except String InterfaceIndex :=
  (parse_u32 b.value).map InterfaceIndex.mk

/-- The Nla value_len of InterfaceName. -/
def InterfaceName.value_len (a : InterfaceName) : Nat := a.val.length

/-- The Nla kind of InterfaceName. -/
def InterfaceName.kind (_ : InterfaceName) : Nat := NL80211_ATTR_IFNAME

/-- The Nla emit_value of InterfaceName. -/
def InterfaceName.emit_value (a : InterfaceName) : List Nat := a.val

/-- The library Emitable buffer_len of InterfaceName. -/
def InterfaceName.buffer_len (a : InterfaceName) : Nat := 4 + nl_align a.value_len

/-- The full library emit of InterfaceName. -/
def InterfaceName.emit (a : InterfaceName) : List Nat := nlaEmitBytes a.kind a.emit_value

/-- The Parseable impl of InterfaceName. -/
def InterfaceName.parse (b : NlaBuf) : Except String InterfaceName :=
  (parse_string b.value).map InterfaceName.mk

/-- Embeds enum Nl80221Message (the source's own spelling). -/
inductive Nl80221Message where
  | GetInterface : InterfaceIndex → Nl80221Message
deriving DecidableEq

/-- Embeds Nl80221Message::attribute_size. -/
def Nl80221Message.attribute_size : Nl80221Message → Nat
  | .GetInterface index => index.buffer_len

/-- Embeds Nl80221Message::command. -/
def Nl80221Message.command : Nl80221Message → Nat
  | .GetInterface _ => NL80211_CMD_GET_INTERFACE

/-- Embeds Nl80221Message::version (a constant 0). -/
def Nl80221Message.version (_ : Nl80221Message) : Nat := 0

/-- Embeds Nl80221Message::emit_attributes. -/
def Nl80221Message.emit_attributes : Nl80221Message → List Nat
  | .GetInterface index => index.emit

/-- Embeds struct Nl80221Family. -/
structure Nl80221Family where
  family : controller.NewFamily
deriving DecidableEq

/-- Embeds struct Nl80221TaggedMessage. -/
structure Nl80221TaggedMessage where
  family_id : controller.FamilyId
  message : Nl80221Message
deriving DecidableEq

/-- Embeds Nl80221Family::new. -/
def Nl80221Family.new (family : controller.NewFamily) : Nl80221Family :=
  Nl80221Family.mk family

/-- Embeds Nl80221Family::tag_message: stamp a message with the resolved
family id. -/
def Nl80221Family.tag_message (f : Nl80221Family) (message : Nl80221Message) :
    Nl80221TaggedMessage :=
  Nl80221TaggedMessage.mk f.family.id message

/-- Embeds the NetlinkSerializable buffer_len for Nl80221TaggedMessage. -/
def Nl80221TaggedMessage.buffer_len (m : Nl80221TaggedMessage) : Nat :=
  4 + m.message.attribute_size

/-- Embeds the NetlinkSerializable message_type for Nl80221TaggedMessage:
the resolved numeric family id. -/
def Nl80221TaggedMessage.message_type (m : Nl80221TaggedMessage) : Nat :=
  m.family_id.val

/-- Embeds the NetlinkSerializable serialize for Nl80221TaggedMessage:
command, version, two reserved zero bytes, then the attributes. -/
def Nl80221TaggedMessage.serialize (m : Nl80221TaggedMessage) : List Nat :=
  [m.message.command, m.message.version, 0, 0] ++ m.message.emit_attributes

end nl80211

/-! Test-harness definitions used only to state the claims: canonical
encodings of sibling attribute lists per the wire format of spec
section 6, and well-formedness of such a list. -/

/-- A buffer holding the given (tag, value) sibling attributes back to
back, each encoded in the canonical attribute wire format. -/
def encodeNlas (attrs : List (Nat × List Nat)) : List Nat :=
  (attrs.map fun a => nlaEmitBytes a.1 a.2).join

/-- Well-formedness of a sibling list: each tag fits the 14-bit tag field
(no nested/byte-order flag bits) and each declared length fits u16. -/
def wfNlas (attrs : List (Nat × List Nat)) : Prop :=
  ∀ a ∈ attrs, a.1 < 16384 ∧ a.2.length + 4 ≤ 65535

/-- Sibling attributes carrying 32-bit payloads, as (tag, value) pairs. -/
def encodeU32Nlas (attrs : List (Nat × Nat)) : List Nat :=
  encodeNlas (attrs.map fun a => (a.1, u32le a.2))

/-- The payload of the last sibling with the given tag, if any: a later
occurrence shadows every earlier one. -/
def lastValueOf (t : Nat) : List (Nat × Nat) → Option Nat
  | [] => none
  | a :: rest =>
    match lastValueOf t rest with
    | some x => some x
    | none => if a.1 = t then some a.2 else none

/-- Locate the attribute at the head of the emitted bytes and hand it to
the given typed parse, the composition the record loops perform; used to
state the round-trip property. -/
def parseEmitted {α : Type} (p : NlaBuf → Except String α) (bytes : List Nat) :
    Except String α :=
  match NlaBuf.new_checked bytes with
  | .error e => .error e
  | .ok b => p b

/-- The synthetic new-family response attribute section of the spec's
end-to-end scenario: id 0x13, name "nl80211", version 1, header_size 0,
max_attributes 0, empty operations, empty multicast groups. -/
def newFamilyScenarioAttrs : List Nat :=
  encodeNlas [
    (constants.CTRL_ATTR_FAMILY_ID, u16le 0x13),
    (constants.CTRL_ATTR_FAMILY_NAME, [110, 108, 56, 48, 50, 49, 49]),
    (constants.CTRL_ATTR_VERSION, u32le 1),
    (constants.CTRL_ATTR_HDRSIZE, u32le 0),
    (constants.CTRL_ATTR_MAXATTR, u32le 0),
    (constants.CTRL_ATTR_OPS, []),
    (constants.CTRL_ATTR_MCAST_GROUPS, [])]

/-- The full synthetic response payload: command NEWFAMILY, version 2,
two reserved bytes, then the attribute section. -/
def newFamilyScenarioPayload : List Nat :=
  [constants.CTRL_CMD_NEWFAMILY, 2, 0, 0] ++ newFamilyScenarioAttrs

/-- The family record the scenario payload denotes. -/
def newFamilyScenarioRecord : controller.NewFamily :=
  controller.NewFamily.mk
    (controller.FamilyId.mk 0x13)
    (controller.FamilyName.mk [110, 108, 56, 48, 50, 49, 49])
    (controller.Version.mk 1)
    (controller.HeaderSize.mk 0)
    (controller.MaxAttributes.mk 0)
    (controller.OperationList.mk [])
    (controller.MulticastGroupList.mk [])

/-! General lemmas about alignment, byte reads, and stepping the
attribute iterator over a canonically encoded sibling list. -/

theorem nl_align_ge (n : Nat) : n ≤ nl_align n := by
  unfold nl_align
  omega

theorem nl_align_add_4 (n : Nat) : nl_align (n + 4) = nl_align n + 4 := by
  unfold nl_align
  omega

theorem leRead2_u16le_append (n : Nat) (rest : List Nat) :
    leRead2 (u16le n ++ rest) = n % 65536 := by
  simp [leRead2, u16le]
  omega

theorem leRead2_u16le (n : Nat) : leRead2 (u16le n) = n % 65536 := by
  simp [leRead2, u16le]
  omega

theorem leRead4_u32le (n : Nat) : leRead4 (u32le n) = n % 4294967296 := by
  simp [leRead4, u32le]
  omega

theorem parse_u16_u16le (n : Nat) : parse_u16 (u16le n) = .ok (n % 65536) := by
  simp [parse_u16, u16le, leRead2]
  omega

theorem parse_u32_u32le (n : Nat) : parse_u32 (u32le n) = .ok (n % 4294967296) := by
  simp [parse_u32, u32le, leRead4]
  omega

theorem nlaEmitBytes_length (t : Nat) (v : List Nat) :
    (nlaEmitBytes t v).length = 4 + nl_align v.length := by
  have := nl_align_ge v.length
  simp [nlaEmitBytes, u16le]
  omega

theorem new_checked_encode (t : Nat) (v : List Nat) (tail : List Nat)
    (hv : v.length + 4 ≤ 65535) :
    NlaBuf.new_checked (nlaEmitBytes t v ++ tail)
      = .ok (NlaBuf.mk (nlaEmitBytes t v ++ tail)) := by
  have hlen : leRead2 (nlaEmitBytes t v ++ tail) = v.length + 4 := by
    rw [nlaEmitBytes, List.append_assoc, List.append_assoc, List.append_assoc,
      leRead2_u16le_append]
    omega
  have hblen : (nlaEmitBytes t v ++ tail).length = 4 + nl_align v.length + tail.length := by
    simp [nlaEmitBytes_length]
  have hga := nl_align_ge v.length
  unfold NlaBuf.new_checked
  rw [if_neg (by omega), if_neg (by omega), if_neg (by omega)]

theorem encode_length (t : Nat) (v : List Nat) (tail : List Nat)
    (hv : v.length + 4 ≤ 65535) :
    (NlaBuf.mk (nlaEmitBytes t v ++ tail)).length = v.length + 4 := by
  show leRead2 _ = _
  rw [nlaEmitBytes, List.append_assoc, List.append_assoc, List.append_assoc,
    leRead2_u16le_append]
  omega

theorem encode_kind (t : Nat) (v : List Nat) (tail : List Nat) (ht : t < 16384) :
    (NlaBuf.mk (nlaEmitBytes t v ++ tail)).kind = t := by
  unfold NlaBuf.kind nlaEmitBytes
  simp [u16le, leRead2]
  omega

theorem encode_value (t : Nat) (v : List Nat) (tail : List Nat)
    (hv : v.length + 4 ≤ 65535) :
    (NlaBuf.mk (nlaEmitBytes t v ++ tail)).value = v := by
  have hlen := encode_length t v tail hv
  unfold NlaBuf.value
  rw [hlen]
  show ((u16le (v.length + 4) ++ u16le t ++ v
    ++ List.replicate (nl_align v.length - v.length) 0 ++ tail).drop 4).take
      (v.length + 4 - 4) = v
  simp [u16le]
  try rw [List.take_append_of_le_length (by simp)]
  try simp

theorem nlasNext_nil : nlasNext [] = .ok none := rfl

theorem nlasNext_encode (t : Nat) (v : List Nat) (tail : List Nat)
    (ht : t < 16384) (hv : v.length + 4 ≤ 65535) :
    nlasNext (nlaEmitBytes t v ++ tail)
      = .ok (some (NlaBuf.mk (nlaEmitBytes t v ++ tail), tail)) := by
  have hblen : (nlaEmitBytes t v ++ tail).length = 4 + nl_align v.length + tail.length := by
    simp [nlaEmitBytes_length]
  have hnn : nlaEmitBytes t v ++ tail ≠ [] := by
    intro hc
    have := congrArg List.length hc
    rw [hblen] at this
    simp at this
  unfold nlasNext
  rw [if_neg hnn, new_checked_encode t v tail hv]
  show Except.ok (some ((NlaBuf.mk (nlaEmitBytes t v ++ tail)),
    (nlaEmitBytes t v ++ tail).drop
      (nl_align (NlaBuf.mk (nlaEmitBytes t v ++ tail)).length))) = _
  have hdrop : (nlaEmitBytes t v ++ tail).drop
      (nl_align (NlaBuf.mk (nlaEmitBytes t v ++ tail)).length) = tail := by
    rw [encode_length t v tail hv]
    have ha : nl_align (v.length + 4) = (nlaEmitBytes t v).length := by
      rw [nlaEmitBytes_length]
      unfold nl_align
      omega
    rw [ha, List.drop_left]
  rw [hdrop]

theorem encodeNlas_nil : encodeNlas [] = [] := rfl

theorem encodeNlas_cons (a : Nat × List Nat) (rest : List (Nat × List Nat)) :
    encodeNlas (a :: rest) = nlaEmitBytes a.1 a.2 ++ encodeNlas rest := by
  simp [encodeNlas]

theorem wfNlas_cons {a : Nat × List Nat} {rest : List (Nat × List Nat)}
    (h : wfNlas (a :: rest)) :
    (a.1 < 16384 ∧ a.2.length + 4 ≤ 65535) ∧ wfNlas rest := by
  refine ⟨h a (List.mem_cons_self a rest), fun b hb => h b (List.mem_cons_of_mem a hb)⟩

/-! Step equations for the record-parser loops over a canonically encoded
sibling list: one equation for the empty buffer and one that consumes the
attribute at the head. -/

namespace controller

theorem op_parseLoop_nil (id : Option OperationId) (flags : Option OperationFlags) :
    Operation.parseLoop [] id flags = .ok (id, flags) := by
  simp [Operation.parseLoop, nlasNext]

theorem op_parseLoop_cons (t : Nat) (v : List Nat) (tail : List Nat)
    (ht : t < 16384) (hv : v.length + 4 ≤ 65535)
    (id : Option OperationId) (flags : Option OperationFlags) :
    Operation.parseLoop (nlaEmitBytes t v ++ tail) id flags =
      if t = 1 then
        match parse_u32 v with
        | .error e => .error e
        | .ok x => Operation.parseLoop tail (some (OperationId.mk x)) flags
      else if t = 2 then
        match parse_u32 v with
        | .error e => .error e
        | .ok x => Operation.parseLoop tail id (some (OperationFlags.mk x))
      else
        .error ("encountered unexpected kind " ++ Nat.repr t
          ++ " when parsing Operation") := by
  rw [Operation.parseLoop.eq_def]
  split
  · rename_i e he
    rw [nlasNext_encode t v tail ht hv] at he
    cases he
  · rename_i he
    rw [nlasNext_encode t v tail ht hv] at he
    cases he
  · rename_i nla rest he
    rw [nlasNext_encode t v tail ht hv] at he
    simp only [Except.ok.injEq, Option.some.injEq, Prod.mk.injEq] at he
    obtain ⟨h1, h2⟩ := he
    subst h1
    subst h2
    rw [encode_kind t v tail ht]
    simp only [constants.CTRL_ATTR_OP_ID, constants.CTRL_ATTR_OP_FLAGS,
      OperationId.parse, OperationFlags.parse, encode_value t v tail hv, Except.map]
    split_ifs <;> first
      | rfl
      | (cases parse_u32 v <;> rfl)

theorem mg_parseLoop_nil (name : Option MulticastGroupName)
    (id : Option MulticastGroupId) :
    MulticastGroup.parseLoop [] name id = .ok (name, id) := by
  simp [MulticastGroup.parseLoop, nlasNext]

theorem mg_parseLoop_cons (t : Nat) (v : List Nat) (tail : List Nat)
    (ht : t < 16384) (hv : v.length + 4 ≤ 65535)
    (name : Option MulticastGroupName) (id : Option MulticastGroupId) :
    MulticastGroup.parseLoop (nlaEmitBytes t v ++ tail) name id =
      if t = 1 then
        match parse_string v with
        | .error e => .error e
        | .ok x => MulticastGroup.parseLoop tail (some (MulticastGroupName.mk x)) id
      else if t = 2 then
        match parse_u32 v with
        | .error e => .error e
        | .ok x => MulticastGroup.parseLoop tail name (some (MulticastGroupId.mk x))
      else
        .error ("encountered unexpected kind " ++ Nat.repr t
          ++ " when parsing MulticastGroup") := by
  rw [MulticastGroup.parseLoop.eq_def]
  split
  · rename_i e he
    rw [nlasNext_encode t v tail ht hv] at he
    cases he
  · rename_i he
    rw [nlasNext_encode t v tail ht hv] at he
    cases he
  · rename_i nla rest he
    rw [nlasNext_encode t v tail ht hv] at he
    simp only [Except.ok.injEq, Option.some.injEq, Prod.mk.injEq] at he
    obtain ⟨h1, h2⟩ := he
    subst h1
    subst h2
    rw [encode_kind t v tail ht]
    simp only [constants.CTRL_ATTR_MCAST_GRP_NAME, constants.CTRL_ATTR_MCAST_GRP_ID,
      MulticastGroupName.parse, MulticastGroupId.parse, encode_value t v tail hv,
      Except.map]
    split_ifs <;> first
      | rfl
      | (cases parse_string v <;> rfl)
      | (cases parse_u32 v <;> rfl)

end controller

namespace controller

theorem nf_parseLoop_nil (name : Option FamilyName) (id : Option FamilyId)
    (version : Option Version) (header_size : Option HeaderSize)
    (max_attributes : Option MaxAttributes) (operations : Option OperationList)
    (multicast_groups : Option MulticastGroupList) :
    NewFamily.parseLoop [] name id version header_size max_attributes operations
        multicast_groups
      = .ok (name, id, version, header_size, max_attributes, operations,
          multicast_groups) := by
  simp [NewFamily.parseLoop, nlasNext]

theorem nf_parseLoop_cons (t : Nat) (v : List Nat) (tail : List Nat)
    (ht : t < 16384) (hv : v.length + 4 ≤ 65535)
    (name : Option FamilyName) (id : Option FamilyId) (version : Option Version)
    (header_size : Option HeaderSize) (max_attributes : Option MaxAttributes)
    (operations : Option OperationList) (multicast_groups : Option MulticastGroupList) :
    NewFamily.parseLoop (nlaEmitBytes t v ++ tail) name id version header_size
        max_attributes operations multicast_groups =
      if t = 2 then
        match parse_string v with
        | .error e => .error e
        | .ok x => NewFamily.parseLoop tail (some (FamilyName.mk x)) id version
            header_size max_attributes operations multicast_groups
      else if t = 1 then
        match parse_u16 v with
        | .error e => .error e
        | .ok x => NewFamily.parseLoop tail name (some (FamilyId.mk x)) version
            header_size max_attributes operations multicast_groups
      else if t = 3 then
        match parse_u32 v with
        | .error e => .error e
        | .ok x => NewFamily.parseLoop tail name id (some (Version.mk x))
            header_size max_attributes operations multicast_groups
      else if t = 4 then
        match parse_u32 v with
        | .error e => .error e
        | .ok x => NewFamily.parseLoop tail name id version (some (HeaderSize.mk x))
            max_attributes operations multicast_groups
      else if t = 5 then
        match parse_u32 v with
        | .error e => .error e
        | .ok x => NewFamily.parseLoop tail name id version header_size
            (some (MaxAttributes.mk x)) operations multicast_groups
      else if t = 6 then
        match OperationList.parseItems v with
        | .error e => .error e
        | .ok x => NewFamily.parseLoop tail name id version header_size
            max_attributes (some (OperationList.mk x)) multicast_groups
      else if t = 7 then
        match MulticastGroupList.parseItems v with
        | .error e => .error e
        | .ok x => NewFamily.parseLoop tail name id version header_size
            max_attributes operations (some (MulticastGroupList.mk x))
      else
        .error ("encountered unexpected kind " ++ Nat.repr t
          ++ " when parsing NewFamily") := by
  rw [NewFamily.parseLoop.eq_def]
  split
  · rename_i e he
    rw [nlasNext_encode t v tail ht hv] at he
    cases he
  · rename_i he
    rw [nlasNext_encode t v tail ht hv] at he
    cases he
  · rename_i nla rest he
    rw [nlasNext_encode t v tail ht hv] at he
    simp only [Except.ok.injEq, Option.some.injEq, Prod.mk.injEq] at he
    obtain ⟨h1, h2⟩ := he
    subst h1
    subst h2
    rw [encode_kind t v tail ht]
    simp only [constants.CTRL_ATTR_FAMILY_NAME, constants.CTRL_ATTR_FAMILY_ID,
      constants.CTRL_ATTR_VERSION, constants.CTRL_ATTR_HDRSIZE,
      constants.CTRL_ATTR_MAXATTR, constants.CTRL_ATTR_OPS,
      constants.CTRL_ATTR_MCAST_GROUPS, FamilyName.parse, FamilyId.parse,
      Version.parse, HeaderSize.parse, MaxAttributes.parse, OperationList.parse,
      MulticastGroupList.parse, encode_value t v tail hv, Except.map]
    split_ifs <;> first
      | rfl
      | (cases parse_string v <;> rfl)
      | (cases parse_u16 v <;> rfl)
      | (cases parse_u32 v <;> rfl)
      | (cases OperationList.parseItems v <;> rfl)
      | (cases MulticastGroupList.parseItems v <;> rfl)

theorem opList_parseItems_nil : OperationList.parseItems [] = .ok [] := by
  simp [OperationList.parseItems, nlasNext]

theorem opList_parseItems_cons (t : Nat) (v : List Nat) (tail : List Nat)
    (ht : t < 16384) (hv : v.length + 4 ≤ 65535) :
    OperationList.parseItems (nlaEmitBytes t v ++ tail) =
      match Operation.parse v with
      | .error e => .error e
      | .ok op =>
        match OperationList.parseItems tail with
        | .error e => .error e
        | .ok ops => .ok (op :: ops) := by
  rw [OperationList.parseItems.eq_def]
  split
  · rename_i e he
    rw [nlasNext_encode t v tail ht hv] at he
    cases he
  · rename_i he
    rw [nlasNext_encode t v tail ht hv] at he
    cases he
  · rename_i nla rest he
    rw [nlasNext_encode t v tail ht hv] at he
    simp only [Except.ok.injEq, Option.some.injEq, Prod.mk.injEq] at he
    obtain ⟨h1, h2⟩ := he
    subst h1
    subst h2
    rw [encode_value t v tail hv]

theorem mgList_parseItems_nil :
    MulticastGroupList.parseItems [] = .ok [] := by
  simp [MulticastGroupList.parseItems, nlasNext]

theorem mgList_parseItems_cons (t : Nat) (v : List Nat) (tail : List Nat)
    (ht : t < 16384) (hv : v.length + 4 ≤ 65535) :
    MulticastGroupList.parseItems (nlaEmitBytes t v ++ tail) =
      match MulticastGroup.parse v with
      | .error e => .error e
      | .ok g =>
        match MulticastGroupList.parseItems tail with
        | .error e => .error e
        | .ok gs => .ok (g :: gs) := by
  rw [MulticastGroupList.parseItems.eq_def]
  split
  · rename_i e he
    rw [nlasNext_encode t v tail ht hv] at he
    cases he
  · rename_i he
    rw [nlasNext_encode t v tail ht hv] at he
    cases he
  · rename_i nla rest he
    rw [nlasNext_encode t v tail ht hv] at he
    simp only [Except.ok.injEq, Option.some.injEq, Prod.mk.injEq] at he
    obtain ⟨h1, h2⟩ := he
    subst h1
    subst h2
    rw [encode_value t v tail hv]

end controller

theorem encodeU32Nlas_nil : encodeU32Nlas [] = [] := rfl

theorem encodeU32Nlas_cons (a : Nat × Nat) (rest : List (Nat × Nat)) :
    encodeU32Nlas (a :: rest) = nlaEmitBytes a.1 (u32le a.2) ++ encodeU32Nlas rest := by
  simp [encodeU32Nlas, encodeNlas]

/-! Universal behaviour of the record-parser loops over encoded sibling
lists: an unrecognised tag forces an error, a tag that never occurs
leaves its slot untouched, and with only recognised tags the loop
succeeds with each slot holding the last occurrence. -/

namespace controller

theorem op_parseLoop_unknown (attrs : List (Nat × List Nat))
    (hwf : wfNlas attrs) (hbad : ∃ a ∈ attrs, ¬(a.1 = 1 ∨ a.1 = 2))
    (id : Option OperationId) (flags : Option OperationFlags) :
    ∃ e, Operation.parseLoop (encodeNlas attrs) id flags = .error e := by
  induction attrs generalizing id flags with
  | nil => simp at hbad
  | cons a rest ih =>
    obtain ⟨⟨ht, hv⟩, hwf'⟩ := wfNlas_cons hwf
    obtain ⟨b, hb, hbad1⟩ := hbad
    rw [encodeNlas_cons, op_parseLoop_cons a.1 a.2 _ ht hv]
    by_cases h1 : a.1 = 1
    · rw [if_pos h1]
      have hbr : ∃ c ∈ rest, ¬(c.1 = 1 ∨ c.1 = 2) := by
        rcases List.mem_cons.mp hb with hb | hb
        · exact absurd (Or.inl (hb ▸ h1)) hbad1
        · exact ⟨b, hb, hbad1⟩
      cases hpu : parse_u32 a.2 with
      | error e => exact ⟨e, rfl⟩
      | ok x => exact ih hwf' hbr _ _
    · by_cases h2 : a.1 = 2
      · rw [if_neg h1, if_pos h2]
        have hbr : ∃ c ∈ rest, ¬(c.1 = 1 ∨ c.1 = 2) := by
          rcases List.mem_cons.mp hb with hb | hb
          · exact absurd (Or.inr (hb ▸ h2)) hbad1
          · exact ⟨b, hb, hbad1⟩
        cases hpu : parse_u32 a.2 with
        | error e => exact ⟨e, rfl⟩
        | ok x => exact ih hwf' hbr _ _
      · rw [if_neg h1, if_neg h2]
        exact ⟨_, rfl⟩

theorem mg_parseLoop_unknown (attrs : List (Nat × List Nat))
    (hwf : wfNlas attrs) (hbad : ∃ a ∈ attrs, ¬(a.1 = 1 ∨ a.1 = 2))
    (name : Option MulticastGroupName) (id : Option MulticastGroupId) :
    ∃ e, MulticastGroup.parseLoop (encodeNlas attrs) name id = .error e := by
  induction attrs generalizing name id with
  | nil => simp at hbad
  | cons a rest ih =>
    obtain ⟨⟨ht, hv⟩, hwf'⟩ := wfNlas_cons hwf
    obtain ⟨b, hb, hbad1⟩ := hbad
    rw [encodeNlas_cons, mg_parseLoop_cons a.1 a.2 _ ht hv]
    by_cases h1 : a.1 = 1
    · rw [if_pos h1]
      have hbr : ∃ c ∈ rest, ¬(c.1 = 1 ∨ c.1 = 2) := by
        rcases List.mem_cons.mp hb with hb | hb
        · exact absurd (Or.inl (hb ▸ h1)) hbad1
        · exact ⟨b, hb, hbad1⟩
      cases hpu : parse_string a.2 with
      | error e => exact ⟨e, rfl⟩
      | ok x => exact ih hwf' hbr _ _
    · by_cases h2 : a.1 = 2
      · rw [if_neg h1, if_pos h2]
        have hbr : ∃ c ∈ rest, ¬(c.1 = 1 ∨ c.1 = 2) := by
          rcases List.mem_cons.mp hb with hb | hb
          · exact absurd (Or.inr (hb ▸ h2)) hbad1
          · exact ⟨b, hb, hbad1⟩
        cases hpu : parse_u32 a.2 with
        | error e => exact ⟨e, rfl⟩
        | ok x => exact ih hwf' hbr _ _
      · rw [if_neg h1, if_neg h2]
        exact ⟨_, rfl⟩

theorem nf_parseLoop_unknown (attrs : List (Nat × List Nat))
    (hwf : wfNlas attrs)
    (hbad : ∃ a ∈ attrs, ¬(a.1 = 1 ∨ a.1 = 2 ∨ a.1 = 3 ∨ a.1 = 4 ∨ a.1 = 5
      ∨ a.1 = 6 ∨ a.1 = 7))
    (name : Option FamilyName) (id : Option FamilyId) (version : Option Version)
    (header_size : Option HeaderSize) (max_attributes : Option MaxAttributes)
    (operations : Option OperationList)
    (multicast_groups : Option MulticastGroupList) :
    ∃ e, NewFamily.parseLoop (encodeNlas attrs) name id version header_size
      max_attributes operations multicast_groups = .error e := by
  induction attrs generalizing name id version header_size max_attributes
    operations multicast_groups with
  | nil => simp at hbad
  | cons a rest ih =>
    obtain ⟨⟨ht, hv⟩, hwf'⟩ := wfNlas_cons hwf
    obtain ⟨b, hb, hbad1⟩ := hbad
    rw [encodeNlas_cons, nf_parseLoop_cons a.1 a.2 _ ht hv]
    have known_case : ∀ (k : Nat), a.1 = k →
        (k = 1 ∨ k = 2 ∨ k = 3 ∨ k = 4 ∨ k = 5 ∨ k = 6 ∨ k = 7) →
        ∃ c ∈ rest, ¬(c.1 = 1 ∨ c.1 = 2 ∨ c.1 = 3 ∨ c.1 = 4 ∨ c.1 = 5
          ∨ c.1 = 6 ∨ c.1 = 7) := by
      intro k hak hk
      rcases List.mem_cons.mp hb with hbb | hbb
      · subst hbb
        exact absurd (hak ▸ hk) hbad1
      · exact ⟨b, hbb, hbad1⟩
    by_cases h2 : a.1 = 2
    · rw [if_pos h2]
      have hbr := known_case 2 h2 (by omega)
      cases hp : parse_string a.2 with
      | error e => exact ⟨e, rfl⟩
      | ok x => exact ih hwf' hbr _ _ _ _ _ _ _
    · rw [if_neg h2]
      by_cases h1 : a.1 = 1
      · rw [if_pos h1]
        have hbr := known_case 1 h1 (by omega)
        cases hp : parse_u16 a.2 with
        | error e => exact ⟨e, rfl⟩
        | ok x => exact ih hwf' hbr _ _ _ _ _ _ _
      · rw [if_neg h1]
        by_cases h3 : a.1 = 3
        · rw [if_pos h3]
          have hbr := known_case 3 h3 (by omega)
          cases hp : parse_u32 a.2 with
          | error e => exact ⟨e, rfl⟩
          | ok x => exact ih hwf' hbr _ _ _ _ _ _ _
        · rw [if_neg h3]
          by_cases h4 : a.1 = 4
          · rw [if_pos h4]
            have hbr := known_case 4 h4 (by omega)
            cases hp : parse_u32 a.2 with
            | error e => exact ⟨e, rfl⟩
            | ok x => exact ih hwf' hbr _ _ _ _ _ _ _
          · rw [if_neg h4]
            by_cases h5 : a.1 = 5
            · rw [if_pos h5]
              have hbr := known_case 5 h5 (by omega)
              cases hp : parse_u32 a.2 with
              | error e => exact ⟨e, rfl⟩
              | ok x => exact ih hwf' hbr _ _ _ _ _ _ _
            · rw [if_neg h5]
              by_cases h6 : a.1 = 6
              · rw [if_pos h6]
                have hbr := known_case 6 h6 (by omega)
                cases hp : OperationList.parseItems a.2 with
                | error e => exact ⟨e, rfl⟩
                | ok x => exact ih hwf' hbr _ _ _ _ _ _ _
              · rw [if_neg h6]
                by_cases h7 : a.1 = 7
                · rw [if_pos h7]
                  have hbr := known_case 7 h7 (by omega)
                  cases hp : MulticastGroupList.parseItems a.2 with
                  | error e => exact ⟨e, rfl⟩
                  | ok x => exact ih hwf' hbr _ _ _ _ _ _ _
                · rw [if_neg h7]
                  exact ⟨_, rfl⟩

end controller

namespace controller

theorem op_parseLoop_preserves (attrs : List (Nat × List Nat))
    (hwf : wfNlas attrs) (id : Option OperationId) (flags : Option OperationFlags)
    (out : Option OperationId × Option OperationFlags)
    (h : Operation.parseLoop (encodeNlas attrs) id flags = .ok out) :
    ((∀ a ∈ attrs, a.1 ≠ 1) → out.1 = id)
      ∧ ((∀ a ∈ attrs, a.1 ≠ 2) → out.2 = flags) := by
  induction attrs generalizing id flags with
  | nil =>
    rw [encodeNlas_nil, op_parseLoop_nil] at h
    simp only [Except.ok.injEq] at h
    subst h
    exact ⟨fun _ => rfl, fun _ => rfl⟩
  | cons a rest ih =>
    obtain ⟨⟨ht, hv⟩, hwf'⟩ := wfNlas_cons hwf
    rw [encodeNlas_cons, op_parseLoop_cons a.1 a.2 _ ht hv] at h
    by_cases h1 : a.1 = 1
    · rw [if_pos h1] at h
      cases hp : parse_u32 a.2 with
      | error e => rw [hp] at h; cases h
      | ok x =>
        rw [hp] at h
        obtain ⟨ih1, ih2⟩ := ih hwf' _ _ h
        constructor
        · intro hm
          exact absurd h1 (hm a (List.mem_cons_self a rest))
        · intro hm
          exact ih2 fun b hb => hm b (List.mem_cons_of_mem a hb)
    · rw [if_neg h1] at h
      by_cases h2 : a.1 = 2
      · rw [if_pos h2] at h
        cases hp : parse_u32 a.2 with
        | error e => rw [hp] at h; cases h
        | ok x =>
          rw [hp] at h
          obtain ⟨ih1, ih2⟩ := ih hwf' _ _ h
          constructor
          · intro hm
            exact ih1 fun b hb => hm b (List.mem_cons_of_mem a hb)
          · intro hm
            exact absurd h2 (hm a (List.mem_cons_self a rest))
      · rw [if_neg h2] at h
        cases h

theorem mg_parseLoop_preserves (attrs : List (Nat × List Nat))
    (hwf : wfNlas attrs) (name : Option MulticastGroupName)
    (id : Option MulticastGroupId)
    (out : Option MulticastGroupName × Option MulticastGroupId)
    (h : MulticastGroup.parseLoop (encodeNlas attrs) name id = .ok out) :
    ((∀ a ∈ attrs, a.1 ≠ 1) → out.1 = name)
      ∧ ((∀ a ∈ attrs, a.1 ≠ 2) → out.2 = id) := by
  induction attrs generalizing name id with
  | nil =>
    rw [encodeNlas_nil, mg_parseLoop_nil] at h
    simp only [Except.ok.injEq] at h
    subst h
    exact ⟨fun _ => rfl, fun _ => rfl⟩
  | cons a rest ih =>
    obtain ⟨⟨ht, hv⟩, hwf'⟩ := wfNlas_cons hwf
    rw [encodeNlas_cons, mg_parseLoop_cons a.1 a.2 _ ht hv] at h
    by_cases h1 : a.1 = 1
    · rw [if_pos h1] at h
      cases hp : parse_string a.2 with
      | error e => rw [hp] at h; cases h
      | ok x =>
        rw [hp] at h
        obtain ⟨ih1, ih2⟩ := ih hwf' _ _ h
        constructor
        · intro hm
          exact absurd h1 (hm a (List.mem_cons_self a rest))
        · intro hm
          exact ih2 fun b hb => hm b (List.mem_cons_of_mem a hb)
    · rw [if_neg h1] at h
      by_cases h2 : a.1 = 2
      · rw [if_pos h2] at h
        cases hp : parse_u32 a.2 with
        | error e => rw [hp] at h; cases h
        | ok x =>
          rw [hp] at h
          obtain ⟨ih1, ih2⟩ := ih hwf' _ _ h
          constructor
          · intro hm
            exact ih1 fun b hb => hm b (List.mem_cons_of_mem a hb)
          · intro hm
            exact absurd h2 (hm a (List.mem_cons_self a rest))
      · rw [if_neg h2] at h
        cases h

end controller

namespace controller

theorem nf_parseLoop_preserves (attrs : List (Nat × List Nat))
    (hwf : wfNlas attrs)
    (name : Option FamilyName) (id : Option FamilyId) (version : Option Version)
    (header_size : Option HeaderSize) (max_attributes : Option MaxAttributes)
    (operations : Option OperationList)
    (multicast_groups : Option MulticastGroupList)
    (out : Option FamilyName × Option FamilyId × Option Version × Option HeaderSize
      × Option MaxAttributes × Option OperationList × Option MulticastGroupList)
    (h : NewFamily.parseLoop (encodeNlas attrs) name id version header_size
      max_attributes operations multicast_groups = .ok out) :
    ((∀ a ∈ attrs, a.1 ≠ 2) → out.1 = name)
      ∧ ((∀ a ∈ attrs, a.1 ≠ 1) → out.2.1 = id)
      ∧ ((∀ a ∈ attrs, a.1 ≠ 3) → out.2.2.1 = version)
      ∧ ((∀ a ∈ attrs, a.1 ≠ 4) → out.2.2.2.1 = header_size)
      ∧ ((∀ a ∈ attrs, a.1 ≠ 5) → out.2.2.2.2.1 = max_attributes)
      ∧ ((∀ a ∈ attrs, a.1 ≠ 6) → out.2.2.2.2.2.1 = operations)
      ∧ ((∀ a ∈ attrs, a.1 ≠ 7) → out.2.2.2.2.2.2 = multicast_groups) := by
  induction attrs generalizing name id version header_size max_attributes
      operations multicast_groups with
  | nil =>
    rw [encodeNlas_nil, nf_parseLoop_nil] at h
    simp only [Except.ok.injEq] at h
    subst h
    exact ⟨fun _ => rfl, fun _ => rfl, fun _ => rfl, fun _ => rfl, fun _ => rfl,
      fun _ => rfl, fun _ => rfl⟩
  | cons a rest ih =>
    obtain ⟨⟨ht, hv⟩, hwf'⟩ := wfNlas_cons hwf
    rw [encodeNlas_cons, nf_parseLoop_cons a.1 a.2 _ ht hv] at h
    by_cases h2 : a.1 = 2
    · rw [if_pos h2] at h
      cases hp : parse_string a.2 with
      | error e => rw [hp] at h; cases h
      | ok x =>
        rw [hp] at h
        obtain ⟨ihA, ihB, ihC, ihD, ihE, ihF, ihG⟩ := ih hwf' _ _ _ _ _ _ _ h
        exact ⟨fun hm => absurd h2 (hm a (List.mem_cons_self a rest)),
          fun hm => ihB fun b hb => hm b (List.mem_cons_of_mem a hb),
          fun hm => ihC fun b hb => hm b (List.mem_cons_of_mem a hb),
          fun hm => ihD fun b hb => hm b (List.mem_cons_of_mem a hb),
          fun hm => ihE fun b hb => hm b (List.mem_cons_of_mem a hb),
          fun hm => ihF fun b hb => hm b (List.mem_cons_of_mem a hb),
          fun hm => ihG fun b hb => hm b (List.mem_cons_of_mem a hb)⟩
    · rw [if_neg h2] at h
      by_cases h1 : a.1 = 1
      · rw [if_pos h1] at h
        cases hp : parse_u16 a.2 with
        | error e => rw [hp] at h; cases h
        | ok x =>
          rw [hp] at h
          obtain ⟨ihA, ihB, ihC, ihD, ihE, ihF, ihG⟩ := ih hwf' _ _ _ _ _ _ _ h
          exact ⟨fun hm => ihA fun b hb => hm b (List.mem_cons_of_mem a hb),
            fun hm => absurd h1 (hm a (List.mem_cons_self a rest)),
            fun hm => ihC fun b hb => hm b (List.mem_cons_of_mem a hb),
            fun hm => ihD fun b hb => hm b (List.mem_cons_of_mem a hb),
            fun hm => ihE fun b hb => hm b (List.mem_cons_of_mem a hb),
            fun hm => ihF fun b hb => hm b (List.mem_cons_of_mem a hb),
            fun hm => ihG fun b hb => hm b (List.mem_cons_of_mem a hb)⟩
      · rw [if_neg h1] at h
        by_cases h3 : a.1 = 3
        · rw [if_pos h3] at h
          cases hp : parse_u32 a.2 with
          | error e => rw [hp] at h; cases h
          | ok x =>
            rw [hp] at h
            obtain ⟨ihA, ihB, ihC, ihD, ihE, ihF, ihG⟩ := ih hwf' _ _ _ _ _ _ _ h
            exact ⟨fun hm => ihA fun b hb => hm b (List.mem_cons_of_mem a hb),
              fun hm => ihB fun b hb => hm b (List.mem_cons_of_mem a hb),
              fun hm => absurd h3 (hm a (List.mem_cons_self a rest)),
              fun hm => ihD fun b hb => hm b (List.mem_cons_of_mem a hb),
              fun hm => ihE fun b hb => hm b (List.mem_cons_of_mem a hb),
              fun hm => ihF fun b hb => hm b (List.mem_cons_of_mem a hb),
              fun hm => ihG fun b hb => hm b (List.mem_cons_of_mem a hb)⟩
        · rw [if_neg h3] at h
          by_cases h4 : a.1 = 4
          · rw [if_pos h4] at h
            cases hp : parse_u32 a.2 with
            | error e => rw [hp] at h; cases h
            | ok x =>
              rw [hp] at h
              obtain ⟨ihA, ihB, ihC, ihD, ihE, ihF, ihG⟩ := ih hwf' _ _ _ _ _ _ _ h
              exact ⟨fun hm => ihA fun b hb => hm b (List.mem_cons_of_mem a hb),
                fun hm => ihB fun b hb => hm b (List.mem_cons_of_mem a hb),
                fun hm => ihC fun b hb => hm b (List.mem_cons_of_mem a hb),
                fun hm => absurd h4 (hm a (List.mem_cons_self a rest)),
                fun hm => ihE fun b hb => hm b (List.mem_cons_of_mem a hb),
                fun hm => ihF fun b hb => hm b (List.mem_cons_of_mem a hb),
                fun hm => ihG fun b hb => hm b (List.mem_cons_of_mem a hb)⟩
          · rw [if_neg h4] at h
            by_cases h5 : a.1 = 5
            · rw [if_pos h5] at h
              cases hp : parse_u32 a.2 with
              | error e => rw [hp] at h; cases h
              | ok x =>
                rw [hp] at h
                obtain ⟨ihA, ihB, ihC, ihD, ihE, ihF, ihG⟩ := ih hwf' _ _ _ _ _ _ _ h
                exact ⟨fun hm => ihA fun b hb => hm b (List.mem_cons_of_mem a hb),
                  fun hm => ihB fun b hb => hm b (List.mem_cons_of_mem a hb),
                  fun hm => ihC fun b hb => hm b (List.mem_cons_of_mem a hb),
                  fun hm => ihD fun b hb => hm b (List.mem_cons_of_mem a hb),
                  fun hm => absurd h5 (hm a (List.mem_cons_self a rest)),
                  fun hm => ihF fun b hb => hm b (List.mem_cons_of_mem a hb),
                  fun hm => ihG fun b hb => hm b (List.mem_cons_of_mem a hb)⟩
            · rw [if_neg h5] at h
              by_cases h6 : a.1 = 6
              · rw [if_pos h6] at h
                cases hp : OperationList.parseItems a.2 with
                | error e => rw [hp] at h; cases h
                | ok x =>
                  rw [hp] at h
                  obtain ⟨ihA, ihB, ihC, ihD, ihE, ihF, ihG⟩ := ih hwf' _ _ _ _ _ _ _ h
                  exact ⟨fun hm => ihA fun b hb => hm b (List.mem_cons_of_mem a hb),
                    fun hm => ihB fun b hb => hm b (List.mem_cons_of_mem a hb),
                    fun hm => ihC fun b hb => hm b (List.mem_cons_of_mem a hb),
                    fun hm => ihD fun b hb => hm b (List.mem_cons_of_mem a hb),
                    fun hm => ihE fun b hb => hm b (List.mem_cons_of_mem a hb),
                    fun hm => absurd h6 (hm a (List.mem_cons_self a rest)),
                    fun hm => ihG fun b hb => hm b (List.mem_cons_of_mem a hb)⟩
              · rw [if_neg h6] at h
                by_cases h7 : a.1 = 7
                · rw [if_pos h7] at h
                  cases hp : MulticastGroupList.parseItems a.2 with
                  | error e => rw [hp] at h; cases h
                  | ok x =>
                    rw [hp] at h
                    obtain ⟨ihA, ihB, ihC, ihD, ihE, ihF, ihG⟩ := ih hwf' _ _ _ _ _ _ _ h
                    exact ⟨fun hm => ihA fun b hb => hm b (List.mem_cons_of_mem a hb),
                      fun hm => ihB fun b hb => hm b (List.mem_cons_of_mem a hb),
                      fun hm => ihC fun b hb => hm b (List.mem_cons_of_mem a hb),
                      fun hm => ihD fun b hb => hm b (List.mem_cons_of_mem a hb),
                      fun hm => ihE fun b hb => hm b (List.mem_cons_of_mem a hb),
                      fun hm => ihF fun b hb => hm b (List.mem_cons_of_mem a hb),
                      fun hm => absurd h7 (hm a (List.mem_cons_self a rest))⟩
                · rw [if_neg h7] at h
                  cases h

end controller

namespace controller

theorem op_parseLoop_known (attrs : List (Nat × Nat))
    (hk : ∀ a ∈ attrs, (a.1 = 1 ∨ a.1 = 2) ∧ a.2 < 4294967296)
    (id : Option OperationId) (flags : Option OperationFlags) :
    Operation.parseLoop (encodeU32Nlas attrs) id flags =
      .ok ((match lastValueOf 1 attrs with
            | some x => some (OperationId.mk x)
            | none => id),
           (match lastValueOf 2 attrs with
            | some x => some (OperationFlags.mk x)
            | none => flags)) := by
  induction attrs generalizing id flags with
  | nil =>
    rw [encodeU32Nlas_nil, op_parseLoop_nil]
    rfl
  | cons a rest ih =>
    obtain ⟨hk1, hk2⟩ := hk a (List.mem_cons_self a rest)
    have hkr : ∀ b ∈ rest, (b.1 = 1 ∨ b.1 = 2) ∧ b.2 < 4294967296 :=
      fun b hb => hk b (List.mem_cons_of_mem a hb)
    have ht : a.1 < 16384 := by rcases hk1 with h | h <;> omega
    have hv : (u32le a.2).length + 4 ≤ 65535 := by simp [u32le]
    rw [encodeU32Nlas_cons, op_parseLoop_cons a.1 (u32le a.2) _ ht hv]
    rcases hk1 with h1 | h2
    · rw [if_pos h1, parse_u32_u32le]
      show Operation.parseLoop (encodeU32Nlas rest)
        (some (OperationId.mk (a.2 % 4294967296))) flags = _
      rw [Nat.mod_eq_of_lt hk2, ih hkr]
      cases hl1 : lastValueOf 1 rest <;> cases hl2 : lastValueOf 2 rest <;>
        simp [lastValueOf, hl1, hl2, h1]
    · have hne1 : ¬(a.1 = 1) := by omega
      rw [if_neg hne1, if_pos h2, parse_u32_u32le]
      show Operation.parseLoop (encodeU32Nlas rest) id
        (some (OperationFlags.mk (a.2 % 4294967296))) = _
      rw [Nat.mod_eq_of_lt hk2, ih hkr]
      cases hl1 : lastValueOf 1 rest <;> cases hl2 : lastValueOf 2 rest <;>
        simp [lastValueOf, hl1, hl2, h2]

theorem op_parse_known (attrs : List (Nat × Nat))
    (hk : ∀ a ∈ attrs, (a.1 = 1 ∨ a.1 = 2) ∧ a.2 < 4294967296)
    (x y : Nat) (hx : lastValueOf 1 attrs = some x) (hy : lastValueOf 2 attrs = some y) :
    Operation.parse (encodeU32Nlas attrs)
      = .ok (Operation.mk (OperationId.mk x) (OperationFlags.mk y)) := by
  unfold Operation.parse
  rw [op_parseLoop_known attrs hk none none, hx, hy]

end controller

theorem new_checked_encode_nil (t : Nat) (v : List Nat) (hv : v.length + 4 ≤ 65535) :
    NlaBuf.new_checked (nlaEmitBytes t v) = .ok (NlaBuf.mk (nlaEmitBytes t v)) := by
  have h := new_checked_encode t v [] hv
  simpa using h

theorem encode_value_nil (t : Nat) (v : List Nat) (hv : v.length + 4 ≤ 65535) :
    (NlaBuf.mk (nlaEmitBytes t v)).value = v := by
  have h := encode_value t v [] hv
  simpa using h

theorem wrapper_roundtrip_u16 {α : Type} (mk : Nat → α) (kind : Nat) (v : Nat)
    (hv : v < 65536) :
    parseEmitted (fun b => (parse_u16 b.value).map mk) (nlaEmitBytes kind (u16le v))
      = .ok (mk v) := by
  unfold parseEmitted
  rw [new_checked_encode_nil kind (u16le v) (by simp [u16le])]
  show (parse_u16 (NlaBuf.mk (nlaEmitBytes kind (u16le v))).value).map mk = _
  rw [encode_value_nil kind (u16le v) (by simp [u16le]), parse_u16_u16le]
  simp [Nat.mod_eq_of_lt hv, Except.map]

theorem wrapper_roundtrip_u32 {α : Type} (mk : Nat → α) (kind : Nat) (v : Nat)
    (hv : v < 4294967296) :
    parseEmitted (fun b => (parse_u32 b.value).map mk) (nlaEmitBytes kind (u32le v))
      = .ok (mk v) := by
  unfold parseEmitted
  rw [new_checked_encode_nil kind (u32le v) (by simp [u32le])]
  show (parse_u32 (NlaBuf.mk (nlaEmitBytes kind (u32le v))).value).map mk = _
  rw [encode_value_nil kind (u32le v) (by simp [u32le]), parse_u32_u32le]
  simp [Nat.mod_eq_of_lt hv, Except.map]

theorem nlasNext_short (buf : List Nat) (h0 : 0 < buf.length) (h4 : buf.length < 4) :
    nlasNext buf = .error "truncated attribute header" := by
  have hne : buf ≠ [] := by
    intro hc
    rw [hc] at h0
    simp at h0
  unfold nlasNext NlaBuf.new_checked
  rw [if_neg hne, if_pos h4]

theorem nlasNext_overlong (buf : List Nat) (h4 : 4 ≤ buf.length)
    (hl : buf.length < leRead2 buf) :
    nlasNext buf = .error "declared attribute length exceeds remaining buffer" := by
  have hne : buf ≠ [] := by
    intro hc
    rw [hc] at h4
    simp at h4
  unfold nlasNext NlaBuf.new_checked
  rw [if_neg hne, if_neg (by omega), if_neg (by omega), if_pos hl]

namespace controller

theorem nf_parseLoop_error (buf : List Nat) (e : String)
    (name : Option FamilyName) (id : Option FamilyId) (version : Option Version)
    (header_size : Option HeaderSize) (max_attributes : Option MaxAttributes)
    (operations : Option OperationList)
    (multicast_groups : Option MulticastGroupList)
    (h : nlasNext buf = .error e) :
    NewFamily.parseLoop buf name id version header_size max_attributes operations
      multicast_groups = .error e := by
  rw [NewFamily.parseLoop.eq_def]
  split
  · rename_i e2 he
    rw [h] at he
    injection he with he
    rw [he]
  · rename_i he
    rw [h] at he
    cases he
  · rename_i nla rest he
    rw [h] at he
    cases he

theorem nf_parse_error (buf : List Nat) (e : String)
    (h : nlasNext buf = .error e) :
    NewFamily.parse buf = .error e := by
  unfold NewFamily.parse
  rw [nf_parseLoop_error buf e none none none none none none none h]

end controller

/-! The claims. -/

/-- C1: the claim says the 16-bit length field that Attribute::emit
writes equals 4 plus the unpadded value length, padding excluded.  The
code refutes it: emit writes buffer_len, which already includes the
alignment padding.  At the failing input Attribute::String("nl80211")
(value length 7) the emitted length field is 12 = 4 + align(7), not
4 + 7 = 11. -/
theorem claim_C1_emit_writes_padded_length :
    leRead2 (genl.Attribute.emit (genl.Attribute.String [110, 108, 56, 48, 50, 49, 49]))
        = 12
      ∧ genl.Attribute.length (genl.Attribute.String [110, 108, 56, 48, 50, 49, 49]) = 7
      ∧ leRead2 (genl.Attribute.emit (genl.Attribute.String [110, 108, 56, 48, 50, 49, 49]))
        ≠ 4 + genl.Attribute.length (genl.Attribute.String [110, 108, 56, 48, 50, 49, 49]) := by
  refine ⟨?_, ?_, ?_⟩ <;>
    simp [genl.Attribute.emit, genl.Attribute.buffer_len, genl.Attribute.length,
      genl.Attribute.header_size, genl.Attribute.type_id, genl.Attribute.valueBytes,
      nl_align, u16le, leRead2]

/-- C2: for every attribute, the encoded length (Attribute::buffer_len)
is the least multiple of 4 that is at least 4 plus the unpadded value
length; at value lengths 0, 1, 2, 3, 4, 5 and 8 it evaluates to 4, 8, 8,
8, 8, 12 and 12 bytes. -/
theorem claim_C2_buffer_len_least_aligned :
    (∀ a : genl.Attribute,
      (4 ∣ a.buffer_len ∧ 4 + a.length ≤ a.buffer_len)
        ∧ ∀ n : Nat, 4 ∣ n → 4 + a.length ≤ n → a.buffer_len ≤ n)
      ∧ genl.Attribute.buffer_len genl.Attribute.Unspecified = 4
      ∧ genl.Attribute.buffer_len (genl.Attribute.U8 0) = 8
      ∧ genl.Attribute.buffer_len (genl.Attribute.U16 0) = 8
      ∧ genl.Attribute.buffer_len (genl.Attribute.Custom 9 [1, 2, 3]) = 8
      ∧ genl.Attribute.buffer_len (genl.Attribute.U32 0) = 8
      ∧ genl.Attribute.buffer_len (genl.Attribute.Custom 9 [1, 2, 3, 4, 5]) = 12
      ∧ genl.Attribute.buffer_len (genl.Attribute.MilliSeconds 0) = 12 := by
  have hbl : ∀ a : genl.Attribute, a.buffer_len = 4 + nl_align a.length := by
    intro a
    simp [genl.Attribute.buffer_len, genl.Attribute.header_size]
  refine ⟨?_, ?_, ?_, ?_, ?_, ?_, ?_, ?_⟩
  · intro a
    rw [hbl a]
    unfold nl_align
    exact ⟨⟨by omega, by omega⟩, fun n hd hle => by omega⟩
  all_goals
    simp [genl.Attribute.buffer_len, genl.Attribute.length, genl.Attribute.header_size,
      nl_align]

/-- C2 witness: at the concrete attribute U8(7) the least-multiple
property instantiates to buffer_len below the multiple 8 of 4. -/
theorem claim_C2_witness :
    4 ∣ genl.Attribute.buffer_len (genl.Attribute.U8 7)
      ∧ genl.Attribute.buffer_len (genl.Attribute.U8 7) ≤ 8 := by
  refine ⟨(claim_C2_buffer_len_least_aligned.1 (genl.Attribute.U8 7)).1.1, ?_⟩
  refine (claim_C2_buffer_len_least_aligned.1 (genl.Attribute.U8 7)).2 8 (by decide) ?_
  simp [genl.Attribute.length]

/-- C5: the claim says every emitted GetFamily(name) request carries the
name under the control tag FAMILY_NAME = 2.  The controller.rs revision
does (its FamilyName wrapper emits tag 2 with the raw string bytes and no
nul terminator), but the genl.rs revision refutes the claim: its
GetFamily wraps the name in Attribute::String, whose placeholder type_id
is 6 (the variant index, flagged by the source's own TODO), so the
emitted tag field is 6, not 2. -/
theorem claim_C5_getfamily_attribute_tag :
    genl.ControlMessage.attributes
        (genl.ControlMessage.GetFamily [110, 108, 56, 48, 50, 49, 49])
      = [genl.Attribute.String [110, 108, 56, 48, 50, 49, 49]]
      ∧ genl.Attribute.type_id (genl.Attribute.String [110, 108, 56, 48, 50, 49, 49]) = 6
      ∧ leRead2 ((genl.Attribute.emit
          (genl.Attribute.String [110, 108, 56, 48, 50, 49, 49])).drop 2) = 6
      ∧ constants.CTRL_ATTR_FAMILY_NAME = 2
      ∧ leRead2 (((controller.FamilyName.mk [110, 108, 56, 48, 50, 49, 49]).emit).drop 2)
        = 2
      ∧ (NlaBuf.mk ((controller.FamilyName.mk [110, 108, 56, 48, 50, 49, 49]).emit)).value
        = [110, 108, 56, 48, 50, 49, 49]
      ∧ (NlaBuf.mk ((controller.FamilyName.mk [110, 108, 56, 48, 50, 49, 49]).emit)).length
        = 11 := by
  refine ⟨rfl, rfl, ?_, rfl, ?_, ?_, ?_⟩
  · simp [genl.Attribute.emit, genl.Attribute.buffer_len, genl.Attribute.length,
      genl.Attribute.header_size, genl.Attribute.type_id, genl.Attribute.valueBytes,
      nl_align, u16le, leRead2]
  all_goals decide

/-- C4: for every fixed-width typed attribute wrapper (FamilyId over u16;
Version, HeaderSize, MaxAttributes, OperationId, OperationFlags,
MulticastGroupId, InterfaceIndex over u32) and every in-range value v,
locating and parsing the bytes produced by emitting v yields exactly v. -/
theorem claim_C4_fixed_width_roundtrip :
    (∀ v : Nat, v < 65536 →
      parseEmitted controller.FamilyId.parse ((controller.FamilyId.mk v).emit)
        = .ok (controller.FamilyId.mk v))
    ∧ (∀ v : Nat, v < 4294967296 →
      parseEmitted controller.Version.parse ((controller.Version.mk v).emit)
        = .ok (controller.Version.mk v))
    ∧ (∀ v : Nat, v < 4294967296 →
      parseEmitted controller.HeaderSize.parse ((controller.HeaderSize.mk v).emit)
        = .ok (controller.HeaderSize.mk v))
    ∧ (∀ v : Nat, v < 4294967296 →
      parseEmitted controller.MaxAttributes.parse ((controller.MaxAttributes.mk v).emit)
        = .ok (controller.MaxAttributes.mk v))
    ∧ (∀ v : Nat, v < 4294967296 →
      parseEmitted controller.OperationId.parse ((controller.OperationId.mk v).emit)
        = .ok (controller.OperationId.mk v))
    ∧ (∀ v : Nat, v < 4294967296 →
      parseEmitted controller.OperationFlags.parse ((controller.OperationFlags.mk v).emit)
        = .ok (controller.OperationFlags.mk v))
    ∧ (∀ v : Nat, v < 4294967296 →
      parseEmitted controller.MulticastGroupId.parse
          ((controller.MulticastGroupId.mk v).emit)
        = .ok (controller.MulticastGroupId.mk v))
    ∧ (∀ v : Nat, v < 4294967296 →
      parseEmitted nl80211.InterfaceIndex.parse ((nl80211.InterfaceIndex.mk v).emit)
        = .ok (nl80211.InterfaceIndex.mk v)) := by
  refine ⟨fun v hv => ?_, fun v hv => ?_, fun v hv => ?_, fun v hv => ?_,
    fun v hv => ?_, fun v hv => ?_, fun v hv => ?_, fun v hv => ?_⟩
  · exact wrapper_roundtrip_u16 controller.FamilyId.mk 1 v hv
  · exact wrapper_roundtrip_u32 controller.Version.mk 3 v hv
  · exact wrapper_roundtrip_u32 controller.HeaderSize.mk 4 v hv
  · exact wrapper_roundtrip_u32 controller.MaxAttributes.mk 5 v hv
  · exact wrapper_roundtrip_u32 controller.OperationId.mk 1 v hv
  · exact wrapper_roundtrip_u32 controller.OperationFlags.mk 2 v hv
  · exact wrapper_roundtrip_u32 controller.MulticastGroupId.mk 2 v hv
  · exact wrapper_roundtrip_u32 nl80211.InterfaceIndex.mk 3 v hv

/-- C4 witness: the round trips instantiated at the concrete values
0x13 (family id) and 13 (interface index). -/
theorem claim_C4_witness :
    parseEmitted controller.FamilyId.parse ((controller.FamilyId.mk 19).emit)
        = .ok (controller.FamilyId.mk 19)
      ∧ parseEmitted nl80211.InterfaceIndex.parse ((nl80211.InterfaceIndex.mk 13).emit)
        = .ok (nl80211.InterfaceIndex.mk 13) :=
  ⟨claim_C4_fixed_width_roundtrip.1 19 (by decide),
   claim_C4_fixed_width_roundtrip.2.2.2.2.2.2.2 13 (by decide)⟩

/-- C9: dispatching a control response with an outer message type other
than the control constant 0x10, or with the control type but a command
byte other than CTRL_CMD_NEWFAMILY, is a decode error reporting the
numeric value seen — at the parametrized-parse level and through
deserialize; no default variant exists. -/
theorem claim_C9_unknown_dispatch_rejected :
    (∀ (b : controller.GenericBuf) (mt : Nat), mt ≠ 0x10 →
      controller.ControlMessage.parse_with_param b mt
        = .error ("unknown message type " ++ Nat.repr mt))
    ∧ (∀ b : controller.GenericBuf, b.command ≠ constants.CTRL_CMD_NEWFAMILY →
      controller.ControlMessage.parse_with_param b 0x10
        = .error ("unsupported command " ++ Nat.repr b.command))
    ∧ (∀ (mt : Nat) (payload : List Nat), 4 ≤ payload.length → mt ≠ 0x10 →
      controller.ControlMessage.deserialize mt payload
        = .error ("unknown message type " ++ Nat.repr mt))
    ∧ (∀ payload : List Nat, 4 ≤ payload.length →
      payload.getD 0 0 ≠ constants.CTRL_CMD_NEWFAMILY →
      controller.ControlMessage.deserialize 0x10 payload
        = .error ("unsupported command " ++ Nat.repr (payload.getD 0 0))) := by
  have hpp1 : ∀ (b : controller.GenericBuf) (mt : Nat), mt ≠ 0x10 →
      controller.ControlMessage.parse_with_param b mt
        = .error ("unknown message type " ++ Nat.repr mt) := by
    intro b mt hmt
    unfold controller.ControlMessage.parse_with_param
    rw [if_neg hmt]
  have hpp2 : ∀ b : controller.GenericBuf, b.command ≠ constants.CTRL_CMD_NEWFAMILY →
      controller.ControlMessage.parse_with_param b 0x10
        = .error ("unsupported command " ++ Nat.repr b.command) := by
    intro b hcmd
    unfold controller.ControlMessage.parse_with_param
    rw [if_pos rfl, if_neg hcmd]
  refine ⟨hpp1, hpp2, ?_, ?_⟩
  · intro mt payload hlen hmt
    unfold controller.ControlMessage.deserialize controller.GenericBuf.new_checked
    rw [if_neg (by omega)]
    exact hpp1 _ mt hmt
  · intro payload hlen hcmd
    unfold controller.ControlMessage.deserialize controller.GenericBuf.new_checked
    rw [if_neg (by omega)]
    exact hpp2 (controller.GenericBuf.mk payload) hcmd

/-- C9 witness: a response tagged with message type 0x11 is rejected
naming 17, and a control response with command byte 9 is rejected
naming 9. -/
theorem claim_C9_witness :
    controller.ControlMessage.deserialize 0x11 [1, 2, 0, 0]
        = .error "unknown message type 17"
      ∧ controller.ControlMessage.deserialize 0x10 [9, 2, 0, 0]
        = .error "unsupported command 9" :=
  ⟨claim_C9_unknown_dispatch_rejected.2.2.1 0x11 [1, 2, 0, 0] (by decide) (by decide),
   claim_C9_unknown_dispatch_rejected.2.2.2 [9, 2, 0, 0] (by decide) (by decide)⟩

/-- C8: parsing is total and truncation-safe.  A buffer shorter than the
4-byte attribute header is rejected with a truncation error, as is a
declared attribute length exceeding the bytes remaining; the same holds
for the generic payload header inside deserialize, and both conditions
propagate through the record parser as errors rather than out-of-bounds
reads (in this embedding every read is bounds-checked by construction,
so totality is witnessed by the error results themselves). -/
theorem claim_C8_truncation_rejected :
    (∀ raw : List Nat, raw.length < 4 →
      NlaBuf.new_checked raw = .error "truncated attribute header")
    ∧ (∀ raw : List Nat, 4 ≤ raw.length → raw.length < leRead2 raw →
      NlaBuf.new_checked raw = .error "declared attribute length exceeds remaining buffer")
    ∧ (∀ (mt : Nat) (payload : List Nat), payload.length < 4 →
      controller.ControlMessage.deserialize mt payload
        = .error "truncated generic header")
    ∧ (∀ buf : List Nat, 0 < buf.length → buf.length < 4 →
      controller.NewFamily.parse buf = .error "truncated attribute header")
    ∧ (∀ buf : List Nat, 4 ≤ buf.length → buf.length < leRead2 buf →
      controller.NewFamily.parse buf
        = .error "declared attribute length exceeds remaining buffer") := by
  refine ⟨?_, ?_, ?_, ?_, ?_⟩
  · intro raw h
    unfold NlaBuf.new_checked
    rw [if_pos h]
  · intro raw h4 hl
    unfold NlaBuf.new_checked
    rw [if_neg (by omega), if_neg (by omega), if_pos hl]
  · intro mt payload h
    unfold controller.ControlMessage.deserialize controller.GenericBuf.new_checked
    rw [if_pos h]
  · intro buf h0 h4
    exact controller.nf_parse_error buf _ (nlasNext_short buf h0 h4)
  · intro buf h4 hl
    exact controller.nf_parse_error buf _ (nlasNext_overlong buf h4 hl)

/-- C8 witness: concrete truncated and overlong buffers are rejected with
the truncation errors. -/
theorem claim_C8_witness :
    NlaBuf.new_checked [1, 2] = .error "truncated attribute header"
      ∧ NlaBuf.new_checked [12, 0, 3, 0]
        = .error "declared attribute length exceeds remaining buffer"
      ∧ controller.ControlMessage.deserialize 0x10 [1, 0]
        = .error "truncated generic header"
      ∧ controller.NewFamily.parse [5]
        = .error "truncated attribute header"
      ∧ controller.NewFamily.parse [255, 255, 1, 0]
        = .error "declared attribute length exceeds remaining buffer" :=
  ⟨claim_C8_truncation_rejected.1 [1, 2] (by decide),
   claim_C8_truncation_rejected.2.1 [12, 0, 3, 0] (by decide) (by decide),
   claim_C8_truncation_rejected.2.2.1 0x10 [1, 0] (by decide),
   claim_C8_truncation_rejected.2.2.2.1 [5] (by decide) (by decide),
   claim_C8_truncation_rejected.2.2.2.2 [255, 255, 1, 0] (by decide) (by decide)⟩

/-- C3: the end-to-end resolution scenario.  Deserializing the synthetic
new-family payload (id 0x13, name "nl80211", version 1, header size 0,
max attributes 0, no operations, no multicast groups) yields the
NewFamily record with family id 0x13; tagging a get-interface request for
interface index 13 with that family serializes with outer message type
0x13, command byte NL80211_CMD_GET_INTERFACE = 5, and a single attribute
with tag NL80211_ATTR_IFINDEX = 3 and value 13. -/
theorem claim_C3_end_to_end_resolution :
    controller.ControlMessage.deserialize 0x10 newFamilyScenarioPayload
      = .ok (controller.ControlMessage.NewFamily newFamilyScenarioRecord)
    ∧ newFamilyScenarioRecord.id = controller.FamilyId.mk 0x13
    ∧ ((nl80211.Nl80221Family.new newFamilyScenarioRecord).tag_message
        (nl80211.Nl80221Message.GetInterface
          (nl80211.InterfaceIndex.mk 13))).message_type = 0x13
    ∧ ((nl80211.Nl80221Family.new newFamilyScenarioRecord).tag_message
        (nl80211.Nl80221Message.GetInterface
          (nl80211.InterfaceIndex.mk 13))).serialize
      = [5, 0, 0, 0, 8, 0, 3, 0, 13, 0, 0, 0] := by
  refine ⟨?_, rfl, rfl, ?_⟩
  · have hutf : utf8Valid [110, 108, 56, 48, 50, 49, 49] = true := by decide
    simp [hutf, controller.ControlMessage.deserialize, controller.GenericBuf.new_checked,
      controller.ControlMessage.parse_with_param, controller.GenericBuf.command,
      controller.GenericBuf.attributes, newFamilyScenarioPayload,
      newFamilyScenarioAttrs, newFamilyScenarioRecord, encodeNlas, nlaEmitBytes,
      u16le, u32le, nl_align, controller.NewFamily.parse, controller.NewFamily.parseLoop,
      nlasNext, NlaBuf.new_checked, NlaBuf.kind, NlaBuf.length, NlaBuf.value,
      leRead2, leRead4, constants.CTRL_CMD_NEWFAMILY, constants.CTRL_ATTR_FAMILY_ID,
      constants.CTRL_ATTR_FAMILY_NAME, constants.CTRL_ATTR_VERSION,
      constants.CTRL_ATTR_HDRSIZE, constants.CTRL_ATTR_MAXATTR,
      constants.CTRL_ATTR_OPS, constants.CTRL_ATTR_MCAST_GROUPS,
      controller.FamilyName.parse, controller.FamilyId.parse, controller.Version.parse,
      controller.HeaderSize.parse, controller.MaxAttributes.parse,
      controller.OperationList.parse, controller.OperationList.parseItems,
      controller.MulticastGroupList.parse, controller.MulticastGroupList.parseItems,
      parse_u16, parse_u32, parse_string, Except.map]
  · decide

/-- C6: for each structured record parser (Operation, MulticastGroup,
NewFamily), a sibling attribute whose tag is outside the record's tag
mapping forces a decode error — the record is never silently produced —
and concretely a new-family buffer carrying every required field plus one
attribute with unknown tag 9 is rejected naming that tag. -/
theorem claim_C6_unknown_tag_rejected :
    (∀ attrs : List (Nat × List Nat), wfNlas attrs →
      (∃ a ∈ attrs, ¬(a.1 = 1 ∨ a.1 = 2)) →
      ∃ e, controller.Operation.parse (encodeNlas attrs) = .error e)
    ∧ (∀ attrs : List (Nat × List Nat), wfNlas attrs →
      (∃ a ∈ attrs, ¬(a.1 = 1 ∨ a.1 = 2)) →
      ∃ e, controller.MulticastGroup.parse (encodeNlas attrs) = .error e)
    ∧ (∀ attrs : List (Nat × List Nat), wfNlas attrs →
      (∃ a ∈ attrs, ¬(a.1 = 1 ∨ a.1 = 2 ∨ a.1 = 3 ∨ a.1 = 4 ∨ a.1 = 5
        ∨ a.1 = 6 ∨ a.1 = 7)) →
      ∃ e, controller.NewFamily.parse (encodeNlas attrs) = .error e)
    ∧ controller.NewFamily.parse (encodeNlas
        [(1, u16le 19), (2, [110, 108, 56, 48, 50, 49, 49]), (3, u32le 1),
         (4, u32le 0), (5, u32le 0), (6, []), (7, []), (9, [])])
      = .error "encountered unexpected kind 9 when parsing NewFamily" := by
  refine ⟨?_, ?_, ?_, ?_⟩
  · intro attrs hwf hbad
    obtain ⟨e, he⟩ := controller.op_parseLoop_unknown attrs hwf hbad none none
    refine ⟨e, ?_⟩
    unfold controller.Operation.parse
    rw [he]
  · intro attrs hwf hbad
    obtain ⟨e, he⟩ := controller.mg_parseLoop_unknown attrs hwf hbad none none
    refine ⟨e, ?_⟩
    unfold controller.MulticastGroup.parse
    rw [he]
  · intro attrs hwf hbad
    obtain ⟨e, he⟩ :=
      controller.nf_parseLoop_unknown attrs hwf hbad none none none none
        none none none
    refine ⟨e, ?_⟩
    unfold controller.NewFamily.parse
    rw [he]
  · have hutf : utf8Valid [110, 108, 56, 48, 50, 49, 49] = true := by decide
    simp [hutf, encodeNlas, nlaEmitBytes, u16le, u32le, nl_align,
      controller.NewFamily.parse, controller.NewFamily.parseLoop,
      nlasNext, NlaBuf.new_checked, NlaBuf.kind, NlaBuf.length, NlaBuf.value,
      leRead2, leRead4, constants.CTRL_ATTR_FAMILY_ID, constants.CTRL_ATTR_FAMILY_NAME,
      constants.CTRL_ATTR_VERSION, constants.CTRL_ATTR_HDRSIZE,
      constants.CTRL_ATTR_MAXATTR, constants.CTRL_ATTR_OPS,
      constants.CTRL_ATTR_MCAST_GROUPS, controller.FamilyName.parse,
      controller.FamilyId.parse, controller.Version.parse, controller.HeaderSize.parse,
      controller.MaxAttributes.parse, controller.OperationList.parse,
      controller.OperationList.parseItems, controller.MulticastGroupList.parse,
      controller.MulticastGroupList.parseItems, parse_u16, parse_u32, parse_string,
      Except.map]
    rfl

/-- C7: for each structured record parser, a buffer among whose siblings
some required tag of the record's mapping never occurs is rejected with a
decode error — no record with an unset field is ever returned — and
concretely a new-family buffer lacking the VERSION attribute is rejected
naming the missing field. -/
theorem claim_C7_missing_field_rejected :
    (∀ attrs : List (Nat × List Nat), wfNlas attrs → (∀ a ∈ attrs, a.1 ≠ 1) →
      ∃ e, controller.Operation.parse (encodeNlas attrs) = .error e)
    ∧ (∀ attrs : List (Nat × List Nat), wfNlas attrs → (∀ a ∈ attrs, a.1 ≠ 2) →
      ∃ e, controller.Operation.parse (encodeNlas attrs) = .error e)
    ∧ (∀ attrs : List (Nat × List Nat), wfNlas attrs → (∀ a ∈ attrs, a.1 ≠ 1) →
      ∃ e, controller.MulticastGroup.parse (encodeNlas attrs) = .error e)
    ∧ (∀ attrs : List (Nat × List Nat), wfNlas attrs → (∀ a ∈ attrs, a.1 ≠ 2) →
      ∃ e, controller.MulticastGroup.parse (encodeNlas attrs) = .error e)
    ∧ (∀ attrs : List (Nat × List Nat), wfNlas attrs → (∀ a ∈ attrs, a.1 ≠ 2) →
      ∃ e, controller.NewFamily.parse (encodeNlas attrs) = .error e)
    ∧ (∀ attrs : List (Nat × List Nat), wfNlas attrs → (∀ a ∈ attrs, a.1 ≠ 1) →
      ∃ e, controller.NewFamily.parse (encodeNlas attrs) = .error e)
    ∧ (∀ attrs : List (Nat × List Nat), wfNlas attrs → (∀ a ∈ attrs, a.1 ≠ 3) →
      ∃ e, controller.NewFamily.parse (encodeNlas attrs) = .error e)
    ∧ (∀ attrs : List (Nat × List Nat), wfNlas attrs → (∀ a ∈ attrs, a.1 ≠ 4) →
      ∃ e, controller.NewFamily.parse (encodeNlas attrs) = .error e)
    ∧ (∀ attrs : List (Nat × List Nat), wfNlas attrs → (∀ a ∈ attrs, a.1 ≠ 5) →
      ∃ e, controller.NewFamily.parse (encodeNlas attrs) = .error e)
    ∧ (∀ attrs : List (Nat × List Nat), wfNlas attrs → (∀ a ∈ attrs, a.1 ≠ 6) →
      ∃ e, controller.NewFamily.parse (encodeNlas attrs) = .error e)
    ∧ (∀ attrs : List (Nat × List Nat), wfNlas attrs → (∀ a ∈ attrs, a.1 ≠ 7) →
      ∃ e, controller.NewFamily.parse (encodeNlas attrs) = .error e)
    ∧ controller.NewFamily.parse (encodeNlas
        [(1, u16le 19), (2, [110, 108, 56, 48, 50, 49, 49]),
         (4, u32le 0), (5, u32le 0), (6, []), (7, [])])
      = .error "missing attribute CTRL_ATTR_VERSION when parsing NewFamily" := by
  refine ⟨?_, ?_, ?_, ?_, ?_, ?_, ?_, ?_, ?_, ?_, ?_, ?_⟩
  · intro attrs hwf hm
    cases hlp : controller.Operation.parseLoop (encodeNlas attrs) none none with
    | error e =>
      refine ⟨e, ?_⟩
      unfold controller.Operation.parse
      rw [hlp]
    | ok out =>
      have hz : out.1 = none :=
        (controller.op_parseLoop_preserves attrs hwf none none out hlp).1 hm
      rcases out with ⟨o1, o2⟩
      have hzz : o1 = none := hz
      subst hzz
      unfold controller.Operation.parse
      rw [hlp]
      exact ⟨_, rfl⟩
  · intro attrs hwf hm
    cases hlp : controller.Operation.parseLoop (encodeNlas attrs) none none with
    | error e =>
      refine ⟨e, ?_⟩
      unfold controller.Operation.parse
      rw [hlp]
    | ok out =>
      have hz : out.2 = none :=
        (controller.op_parseLoop_preserves attrs hwf none none out hlp).2 hm
      rcases out with ⟨o1, o2⟩
      have hzz : o2 = none := hz
      subst hzz
      unfold controller.Operation.parse
      rw [hlp]
      cases o1 <;> exact ⟨_, rfl⟩
  · intro attrs hwf hm
    cases hlp : controller.MulticastGroup.parseLoop (encodeNlas attrs) none none with
    | error e =>
      refine ⟨e, ?_⟩
      unfold controller.MulticastGroup.parse
      rw [hlp]
    | ok out =>
      have hz : out.1 = none :=
        (controller.mg_parseLoop_preserves attrs hwf none none out hlp).1 hm
      rcases out with ⟨o1, o2⟩
      have hzz : o1 = none := hz
      subst hzz
      unfold controller.MulticastGroup.parse
      rw [hlp]
      exact ⟨_, rfl⟩
  · intro attrs hwf hm
    cases hlp : controller.MulticastGroup.parseLoop (encodeNlas attrs) none none with
    | error e =>
      refine ⟨e, ?_⟩
      unfold controller.MulticastGroup.parse
      rw [hlp]
    | ok out =>
      have hz : out.2 = none :=
        (controller.mg_parseLoop_preserves attrs hwf none none out hlp).2 hm
      rcases out with ⟨o1, o2⟩
      have hzz : o2 = none := hz
      subst hzz
      unfold controller.MulticastGroup.parse
      rw [hlp]
      cases o1 <;> exact ⟨_, rfl⟩
  · intro attrs hwf hm
    cases hlp : controller.NewFamily.parseLoop (encodeNlas attrs) none none none none
        none none none with
    | error e =>
      refine ⟨e, ?_⟩
      unfold controller.NewFamily.parse
      rw [hlp]
    | ok out =>
      have hz : out.1 = none :=
        (controller.nf_parseLoop_preserves attrs hwf none none none none none
          none none out hlp).1 hm
      rcases out with ⟨o1, o2, o3, o4, o5, o6, o7⟩
      have hzz : o1 = none := hz
      subst hzz
      unfold controller.NewFamily.parse
      rw [hlp]
      cases o2 <;> cases o3 <;> cases o4 <;> cases o5 <;> cases o6 <;> cases o7 <;> exact ⟨_, rfl⟩
  · intro attrs hwf hm
    cases hlp : controller.NewFamily.parseLoop (encodeNlas attrs) none none none none
        none none none with
    | error e =>
      refine ⟨e, ?_⟩
      unfold controller.NewFamily.parse
      rw [hlp]
    | ok out =>
      have hz : out.2.1 = none :=
        (controller.nf_parseLoop_preserves attrs hwf none none none none none
          none none out hlp).2.1 hm
      rcases out with ⟨o1, o2, o3, o4, o5, o6, o7⟩
      have hzz : o2 = none := hz
      subst hzz
      unfold controller.NewFamily.parse
      rw [hlp]
      cases o1 <;> cases o3 <;> cases o4 <;> cases o5 <;> cases o6 <;> cases o7 <;> exact ⟨_, rfl⟩
  · intro attrs hwf hm
    cases hlp : controller.NewFamily.parseLoop (encodeNlas attrs) none none none none
        none none none with
    | error e =>
      refine ⟨e, ?_⟩
      unfold controller.NewFamily.parse
      rw [hlp]
    | ok out =>
      have hz : out.2.2.1 = none :=
        (controller.nf_parseLoop_preserves attrs hwf none none none none none
          none none out hlp).2.2.1 hm
      rcases out with ⟨o1, o2, o3, o4, o5, o6, o7⟩
      have hzz : o3 = none := hz
      subst hzz
      unfold controller.NewFamily.parse
      rw [hlp]
      cases o1 <;> cases o2 <;> cases o4 <;> cases o5 <;> cases o6 <;> cases o7 <;> exact ⟨_, rfl⟩
  · intro attrs hwf hm
    cases hlp : controller.NewFamily.parseLoop (encodeNlas attrs) none none none none
        none none none with
    | error e =>
      refine ⟨e, ?_⟩
      unfold controller.NewFamily.parse
      rw [hlp]
    | ok out =>
      have hz : out.2.2.2.1 = none :=
        (controller.nf_parseLoop_preserves attrs hwf none none none none none
          none none out hlp).2.2.2.1 hm
      rcases out with ⟨o1, o2, o3, o4, o5, o6, o7⟩
      have hzz : o4 = none := hz
      subst hzz
      unfold controller.NewFamily.parse
      rw [hlp]
      cases o1 <;> cases o2 <;> cases o3 <;> cases o5 <;> cases o6 <;> cases o7 <;> exact ⟨_, rfl⟩
  · intro attrs hwf hm
    cases hlp : controller.NewFamily.parseLoop (encodeNlas attrs) none none none none
        none none none with
    | error e =>
      refine ⟨e, ?_⟩
      unfold controller.NewFamily.parse
      rw [hlp]
    | ok out =>
      have hz : out.2.2.2.2.1 = none :=
        (controller.nf_parseLoop_preserves attrs hwf none none none none none
          none none out hlp).2.2.2.2.1 hm
      rcases out with ⟨o1, o2, o3, o4, o5, o6, o7⟩
      have hzz : o5 = none := hz
      subst hzz
      unfold controller.NewFamily.parse
      rw [hlp]
      cases o1 <;> cases o2 <;> cases o3 <;> cases o4 <;> cases o6 <;> cases o7 <;> exact ⟨_, rfl⟩
  · intro attrs hwf hm
    cases hlp : controller.NewFamily.parseLoop (encodeNlas attrs) none none none none
        none none none with
    | error e =>
      refine ⟨e, ?_⟩
      unfold controller.NewFamily.parse
      rw [hlp]
    | ok out =>
      have hz : out.2.2.2.2.2.1 = none :=
        (controller.nf_parseLoop_preserves attrs hwf none none none none none
          none none out hlp).2.2.2.2.2.1 hm
      rcases out with ⟨o1, o2, o3, o4, o5, o6, o7⟩
      have hzz : o6 = none := hz
      subst hzz
      unfold controller.NewFamily.parse
      rw [hlp]
      cases o1 <;> cases o2 <;> cases o3 <;> cases o4 <;> cases o5 <;> cases o7 <;> exact ⟨_, rfl⟩
  · intro attrs hwf hm
    cases hlp : controller.NewFamily.parseLoop (encodeNlas attrs) none none none none
        none none none with
    | error e =>
      refine ⟨e, ?_⟩
      unfold controller.NewFamily.parse
      rw [hlp]
    | ok out =>
      have hz : out.2.2.2.2.2.2 = none :=
        (controller.nf_parseLoop_preserves attrs hwf none none none none none
          none none out hlp).2.2.2.2.2.2 hm
      rcases out with ⟨o1, o2, o3, o4, o5, o6, o7⟩
      have hzz : o7 = none := hz
      subst hzz
      unfold controller.NewFamily.parse
      rw [hlp]
      cases o1 <;> cases o2 <;> cases o3 <;> cases o4 <;> cases o5 <;> cases o6 <;> exact ⟨_, rfl⟩
  · have hutf : utf8Valid [110, 108, 56, 48, 50, 49, 49] = true := by decide
    simp [hutf, encodeNlas, nlaEmitBytes, u16le, u32le, nl_align,
      controller.NewFamily.parse, controller.NewFamily.parseLoop,
      nlasNext, NlaBuf.new_checked, NlaBuf.kind, NlaBuf.length, NlaBuf.value,
      leRead2, leRead4, constants.CTRL_ATTR_FAMILY_ID, constants.CTRL_ATTR_FAMILY_NAME,
      constants.CTRL_ATTR_VERSION, constants.CTRL_ATTR_HDRSIZE,
      constants.CTRL_ATTR_MAXATTR, constants.CTRL_ATTR_OPS,
      constants.CTRL_ATTR_MCAST_GROUPS, controller.FamilyName.parse,
      controller.FamilyId.parse, controller.Version.parse, controller.HeaderSize.parse,
      controller.MaxAttributes.parse, controller.OperationList.parse,
      controller.OperationList.parseItems, controller.MulticastGroupList.parse,
      controller.MulticastGroupList.parseItems, parse_u16, parse_u32, parse_string,
      Except.map]

/-- C6 witness: an Operation buffer with both required fields present and
one unknown tag 5 is rejected. -/
theorem claim_C6_witness :
    ∃ e, controller.Operation.parse
      (encodeNlas [(1, u32le 7), (2, u32le 9), (5, [])]) = .error e :=
  claim_C6_unknown_tag_rejected.1 [(1, u32le 7), (2, u32le 9), (5, [])]
    (by unfold wfNlas; decide) (by decide)

/-- C7 witness: an Operation buffer whose siblings never carry the
required tag CTRL_ATTR_OP_ID is rejected. -/
theorem claim_C7_witness :
    ∃ e, controller.Operation.parse (encodeNlas [(2, u32le 9)]) = .error e :=
  claim_C7_missing_field_rejected.1 [(2, u32le 9)] (by unfold wfNlas; decide) (by decide)

/-- C10: a recognised tag occurring more than once among the siblings is
not an error: the Operation parser succeeds (all required tags present,
no unknown tags) and each field holds the value of the last occurrence in
buffer order; concretely, a new-family buffer carrying FAMILY_ID twice
(0x13 first, then 42) parses with family id 42. -/
theorem claim_C10_duplicate_tag_last_wins :
    (∀ attrs : List (Nat × Nat),
      (∀ a ∈ attrs, (a.1 = 1 ∨ a.1 = 2) ∧ a.2 < 4294967296) →
      ∀ x y : Nat, lastValueOf 1 attrs = some x → lastValueOf 2 attrs = some y →
      controller.Operation.parse (encodeU32Nlas attrs)
        = .ok (controller.Operation.mk (controller.OperationId.mk x)
            (controller.OperationFlags.mk y)))
    ∧ controller.NewFamily.parse (encodeNlas
        [(1, u16le 19), (2, [110, 108, 56, 48, 50, 49, 49]), (3, u32le 1),
         (4, u32le 0), (5, u32le 0), (6, []), (7, []), (1, u16le 42)])
      = .ok (controller.NewFamily.mk (controller.FamilyId.mk 42)
          (controller.FamilyName.mk [110, 108, 56, 48, 50, 49, 49])
          (controller.Version.mk 1) (controller.HeaderSize.mk 0)
          (controller.MaxAttributes.mk 0) (controller.OperationList.mk [])
          (controller.MulticastGroupList.mk [])) := by
  constructor
  · exact fun attrs hk x y hx hy => controller.op_parse_known attrs hk x y hx hy
  · have hutf : utf8Valid [110, 108, 56, 48, 50, 49, 49] = true := by decide
    simp [hutf, encodeNlas, nlaEmitBytes, u16le, u32le, nl_align,
      controller.NewFamily.parse, controller.NewFamily.parseLoop,
      nlasNext, NlaBuf.new_checked, NlaBuf.kind, NlaBuf.length, NlaBuf.value,
      leRead2, leRead4, constants.CTRL_ATTR_FAMILY_ID, constants.CTRL_ATTR_FAMILY_NAME,
      constants.CTRL_ATTR_VERSION, constants.CTRL_ATTR_HDRSIZE,
      constants.CTRL_ATTR_MAXATTR, constants.CTRL_ATTR_OPS,
      constants.CTRL_ATTR_MCAST_GROUPS, controller.FamilyName.parse,
      controller.FamilyId.parse, controller.Version.parse, controller.HeaderSize.parse,
      controller.MaxAttributes.parse, controller.OperationList.parse,
      controller.OperationList.parseItems, controller.MulticastGroupList.parse,
      controller.MulticastGroupList.parseItems, parse_u16, parse_u32, parse_string,
      Except.map]

/-- C10 witness: with OP_ID occurring twice (7 then 8) and OP_FLAGS once,
the Operation parser succeeds and keeps the last OP_ID value 8. -/
theorem claim_C10_witness :
    controller.Operation.parse (encodeU32Nlas [(1, 7), (1, 8), (2, 3)])
      = .ok (controller.Operation.mk (controller.OperationId.mk 8)
          (controller.OperationFlags.mk 3)) :=
  claim_C10_duplicate_tag_last_wins.1 [(1, 7), (1, 8), (2, 3)] (by decide) 8 3
    (by decide) (by decide)
